import Mathlib

/-!
Shallow embedding of the Order-Swift order-settlement core
(cart pricing, order creation/cancellation, wallet ledger, coupon
validation, order status state machine), translated from
`src/services/cart.service.js`, `src/services/order.service.js`,
`src/services/wallet.service.js`, `src/services/coupon.service.js`,
`src/routes/coupon.routes.js` (owner transition table) and
`src/db/schema.js`.

Monetary values are modelled as exact rationals; the JavaScript
`Number.prototype.toFixed(2)` step (followed by `parseFloat`) is
modelled as rounding to two decimal places (`round2`).  Database rows
are lists of records; a thrown `AppError` is `Except.error`; a SQL
transaction that either commits all its writes or rolls all of them
back is modelled by an operation returning `Except String (α × DB)`:
on `error` no new state is produced.
-/

namespace OrderSwift

/-- `x.toFixed(2)` then `parseFloat`: round to 2 decimal places. -/
def round2 (q : ℚ) : ℚ := (round (q * 100) : ℤ) / 100

/-- A rational that is exactly representable with 2 decimal places,
as every NUMERIC(p,2) column value is. -/
def Is2dp (q : ℚ) : Prop := round2 q = q

instance (q : ℚ) : Decidable (Is2dp q) := by unfold Is2dp; infer_instance

/-- Insertion into a sorted list of ids (helper for `sortIds`). -/
def insertSorted (x : Nat) : List Nat → List Nat
  | [] => [x]
  | y :: ys => if x ≤ y then x :: y :: ys else y :: insertSorted x ys

/-- `[...ids].sort()` : the sorted list of add-on ids used as the
cart-line deduplication fingerprint (`JSON.stringify` of two sorted
arrays is equal iff the sorted lists are equal). -/
def sortIds (l : List Nat) : List Nat := l.foldr insertSorted []

-- ─── Data model (src/db/schema.js) ───────────────────────────────────────────

structure MenuItem where
  id : Nat
  restaurantId : Nat
  name : String
  basePrice : ℚ
  isAvailable : Bool
deriving Repr, DecidableEq

structure MenuItemVariant where
  id : Nat
  menuItemId : Nat
  name : String
  price : ℚ
deriving Repr, DecidableEq

structure AddOn where
  id : Nat
  menuItemId : Nat
  name : String
  price : ℚ
deriving Repr, DecidableEq

/-- The `{addOnId, name, price}` snapshot stored in a cart line's /
order line's `add_ons` jsonb column. -/
structure AddOnSnap where
  addOnId : Nat
  name : String
  price : ℚ
deriving Repr, DecidableEq

structure Restaurant where
  id : Nat
  name : String
  preparationTime : Option Nat
  minOrder : ℚ
  isActive : Bool
  isOpen : Bool
deriving Repr, DecidableEq

structure Cart where
  id : Nat
  userId : Nat
  restaurantId : Nat
deriving Repr, DecidableEq

structure CartItem where
  id : Nat
  cartId : Nat
  menuItemId : Nat
  variantId : Option Nat
  addOns : List AddOnSnap
  quantity : Nat
deriving Repr, DecidableEq

inductive OrderStatus
  | pending | paid | confirmed | preparing | ready | collected | cancelled
deriving Repr, DecidableEq

structure Order where
  id : Nat
  userId : Nat
  restaurantId : Nat
  status : OrderStatus
  subtotal : ℚ
  discountAmount : ℚ
  totalAmount : ℚ
  couponCode : Option String
  walletAmountUsed : ℚ
  pickupName : Option String
  notes : Option String
  preparationTime : Nat
  idempotencyKey : Option String
deriving Repr, DecidableEq

structure OrderItem where
  orderId : Nat
  menuItemId : Nat
  name : String
  variantName : Option String
  addOns : List AddOnSnap
  quantity : Nat
  unitPrice : ℚ
  totalPrice : ℚ
deriving Repr, DecidableEq

structure Wallet where
  userId : Nat
  balance : ℚ
deriving Repr, DecidableEq

inductive TxType | credit | debit
deriving Repr, DecidableEq

structure WalletTx where
  userId : Nat
  type : TxType
  amount : ℚ
  description : String
  referenceId : Option Nat
  balanceAfter : ℚ
deriving Repr, DecidableEq

inductive CouponType | flat | percentage
deriving Repr, DecidableEq

/-- A coupon row.  `expired` abstracts the wall-clock comparison
`coupon.expiresAt && new Date(coupon.expiresAt) < new Date()`. -/
structure Coupon where
  id : Nat
  code : String
  type : CouponType
  value : ℚ
  minOrder : ℚ
  maxDiscount : Option ℚ
  expired : Bool
  usageLimit : Option Nat
  usedCount : Nat
  perUserLimit : Nat
  isActive : Bool
deriving Repr, DecidableEq

structure CouponUsage where
  userId : Nat
  couponId : Nat
  orderId : Option Nat
deriving Repr, DecidableEq

/-- The database state visible to the settlement core.  `nextId` is a
fresh-id source standing in for `uuid defaultRandom` primary keys. -/
structure DB where
  restaurants : List Restaurant
  menuItems : List MenuItem
  variants : List MenuItemVariant
  addOns : List AddOn
  carts : List Cart
  cartItems : List CartItem
  orders : List Order
  orderItems : List OrderItem
  wallets : List Wallet
  walletTxs : List WalletTx
  coupons : List Coupon
  couponUsage : List CouponUsage
  nextId : Nat
deriving Repr, DecidableEq

def emptyDB : DB :=
  { restaurants := [], menuItems := [], variants := [], addOns := []
    carts := [], cartItems := [], orders := [], orderItems := []
    wallets := [], walletTxs := [], coupons := [], couponUsage := []
    nextId := 1 }

-- ─── Cart service (src/services/cart.service.js) ─────────────────────────────

/-- `getOrCreateCart(userId)` — despite the name, a pure lookup:
returns the user's cart row or `null`. -/
def getOrCreateCartRow (db : DB) (userId : Nat) : Option Cart :=
  db.carts.find? (fun c => c.userId == userId)

/-- A cart line joined with its current catalog data and priced
(the element shape produced by `_getCartItemsWithDetails`). -/
structure DetailedCartItem where
  item : CartItem
  menuItemName : String
  variant : Option MenuItemVariant
  unitPrice : ℚ
  totalPrice : ℚ
deriving Repr, DecidableEq

/-- Sum of the stored add-on snapshot prices of one cart line. -/
def addOnPriceSum (snaps : List AddOnSnap) : ℚ :=
  snaps.foldl (fun s a => s + a.price) 0

/-- Detail and price one cart line.  The menu item row is required: the
JavaScript reads `menuItem.basePrice` / `menuItem.id` from the lookup
map, so a deleted menu item throws a TypeError out of the whole call
(there is no exclusion, and `isAvailable` is never consulted).  A
missing variant row falls back to the base price
(`variant ? variant.price : menuItem.basePrice`). -/
def detailCartItem (db : DB) (item : CartItem) : Except String DetailedCartItem :=
  match db.menuItems.find? (fun m => m.id == item.menuItemId) with
  | none => .error "TypeError: cannot read basePrice of undefined menu item"
  | some menuItem =>
      let variant : Option MenuItemVariant :=
        match item.variantId with
        | some vid => db.variants.find? (fun v => v.id == vid)
        | none => none
      let basePrice : ℚ :=
        match variant with
        | some v => v.price
        | none => menuItem.basePrice
      let unitPrice := basePrice + addOnPriceSum item.addOns
      .ok { item := item, menuItemName := menuItem.name, variant := variant
            unitPrice := unitPrice
            totalPrice := unitPrice * (item.quantity : ℚ) }

/-- The `items.map(...)` body of `_getCartItemsWithDetails`: details
each line in order, propagating the first thrown TypeError. -/
def detailCartItems (db : DB) : List CartItem → Except String (List DetailedCartItem)
  | [] => .ok []
  | item :: rest =>
      match detailCartItem db item with
      | .error e => .error e
      | .ok d =>
          match detailCartItems db rest with
          | .error e => .error e
          | .ok ds => .ok (d :: ds)

/-- The cart lines belonging to one cart. -/
def cartRows (db : DB) (cartId : Nat) : List CartItem :=
  db.cartItems.filter (fun i => i.cartId == cartId)

/-- `_getCartItemsWithDetails(cartId)`. -/
def _getCartItemsWithDetails (db : DB) (cartId : Nat) : Except String (List DetailedCartItem) :=
  detailCartItems db (cartRows db cartId)

structure Pricing where
  subtotal : ℚ
  discountAmount : ℚ
  totalAmount : ℚ
deriving Repr, DecidableEq

/-- `_calculatePricing(items)` — takeaway pricing, no tax or delivery
fee; the engine-level discount is the constant 0. -/
def _calculatePricing (items : List DetailedCartItem) : Pricing :=
  let subtotal := round2 (items.foldl (fun s i => s + i.totalPrice) 0)
  let discountAmount : ℚ := 0
  { subtotal := subtotal, discountAmount := discountAmount
    totalAmount := round2 (subtotal - discountAmount) }

def _emptyPricing : Pricing := { subtotal := 0, discountAmount := 0, totalAmount := 0 }

/-- `getCart(userId)`. -/
def getCart (db : DB) (userId : Nat) :
    Except String (Option Cart × List DetailedCartItem × Pricing) :=
  match getOrCreateCartRow db userId with
  | none => .ok (none, [], _emptyPricing)
  | some cart =>
      match _getCartItemsWithDetails db cart.id with
      | .error e => .error e
      | .ok items => .ok (some cart, items, _calculatePricing items)

structure AddToCartReq where
  menuItemId : Nat
  variantId : Option Nat
  addOnIds : List Nat
  quantity : Nat
deriving Repr, DecidableEq

/-- The dedup predicate of `addToCart` step 6: same (null-safe)
variant and same sorted add-on id fingerprint, the stored side taken
from the row's add-on snapshot. -/
def rowMatchesReq (req : AddToCartReq) (row : CartItem) : Bool :=
  row.variantId == req.variantId &&
    sortIds (row.addOns.map (fun a => a.addOnId)) == sortIds req.addOnIds

/-- Steps 4-7 of `addToCart`, once the cart row is in hand: build the
add-on snapshot, look for a duplicate line, merge or insert. -/
def addToCartInCart (req : AddToCartReq) (cart : Cart) (db1 : DB) :
    Except String (CartItem × DB) :=
  -- 4. server-side add-on snapshot (filtered to this menu item; availability
  --    is not checked here)
  let addOnSnapshot : List AddOnSnap :=
    if req.addOnIds.isEmpty then []
    else ((db1.addOns.filter
            (fun a => req.addOnIds.contains a.id && a.menuItemId == req.menuItemId)).map
          (fun a => { addOnId := a.id, name := a.name, price := a.price }))
  -- 5-6. scan this cart's rows for the same item with a matching fingerprint
  let existingRows := (db1.cartItems.filter
    (fun r => r.cartId == cart.id && r.menuItemId == req.menuItemId))
  match existingRows.find? (rowMatchesReq req) with
  | some matchingRow =>
      -- merge: increment quantity only
      let updated : CartItem := { matchingRow with quantity := matchingRow.quantity + req.quantity }
      let newItems := db1.cartItems.map (fun r => if r.id == matchingRow.id then updated else r)
      .ok (updated, { db1 with cartItems := newItems })
  | none =>
      -- insert a new combination
      let cartItem : CartItem :=
        { id := db1.nextId, cartId := cart.id, menuItemId := req.menuItemId
          variantId := req.variantId, addOns := addOnSnapshot, quantity := req.quantity }
      .ok (cartItem,
           { db1 with cartItems := db1.cartItems ++ [cartItem], nextId := db1.nextId + 1 })

/-- `addToCart(userId, {menuItemId, variantId, addOnIds, quantity})`. -/
def addToCart (db : DB) (userId : Nat) (req : AddToCartReq) :
    Except String (CartItem × DB) :=
  -- 1. source of truth: the server-side menu item, which must be available
  match db.menuItems.find? (fun m => m.id == req.menuItemId && m.isAvailable) with
  | none => .error "Menu item not available"
  | some item =>
    -- 2. cross-restaurant guard
    match getOrCreateCartRow db userId with
    | some c =>
        if c.restaurantId ≠ item.restaurantId then
          .error "Your cart already has items from a different restaurant. Clear it first."
        else addToCartInCart req c db
    | none =>
        -- 3. create the cart row
        let cart : Cart := { id := db.nextId, userId := userId, restaurantId := item.restaurantId }
        let db1 : DB := { db with carts := db.carts ++ [cart], nextId := db.nextId + 1 }
        addToCartInCart req cart db1

-- ─── Wallet service (src/services/wallet.service.js) ─────────────────────────

/-- The user's wallet balance as the SQL reads it (missing row reads
as no wallet; a missing row's balance is taken as 0 where the code
upserts a zero-balance row first). -/
def walletBalance (db : DB) (userId : Nat) : ℚ :=
  match db.wallets.find? (fun w => w.userId == userId) with
  | some w => w.balance
  | none => 0

/-- `INSERT INTO wallets (user_id, balance) VALUES ($1, 0)
ON CONFLICT (user_id) DO NOTHING`. -/
def ensureWallet (db : DB) (userId : Nat) : DB :=
  match db.wallets.find? (fun w => w.userId == userId) with
  | some _ => db
  | none => { db with wallets := db.wallets ++ [{ userId := userId, balance := 0 }] }

/-- `UPDATE wallets SET balance = balance + δ WHERE user_id = $2`. -/
def bumpWalletBalance (db : DB) (userId : Nat) (delta : ℚ) : DB :=
  let newWallets := db.wallets.map
    (fun w => if w.userId == userId then { w with balance := w.balance + delta } else w)
  { db with wallets := newWallets }

/-- Append one `wallet_transactions` row. -/
def appendTx (db : DB) (t : WalletTx) : DB :=
  { db with walletTxs := db.walletTxs ++ [t] }

/-- `getOrCreateWallet(userId)`. -/
def getOrCreateWallet (db : DB) (userId : Nat) : Wallet × DB :=
  match db.wallets.find? (fun w => w.userId == userId) with
  | some w => (w, db)
  | none =>
      let w : Wallet := { userId := userId, balance := 0 }
      (w, { db with wallets := db.wallets ++ [w] })

/-- `addMoney(userId, amount, description)` — wallet credit.  The
bounds are checked on the raw amount; the mutation applies the
2-decimal-rounded amount (`amtNum.toFixed(2)`). -/
def addMoney (db : DB) (userId : Nat) (amount : ℚ)
    (description : String := "Added to wallet") : Except String (ℚ × DB) :=
  if amount ≤ 0 then .error "Amount must be a positive number"
  else if 50000 < amount then .error "Cannot add more than 50,000 at once"
  else
    let db1 := ensureWallet db userId
    let amt := round2 amount
    let db2 := bumpWalletBalance db1 userId amt
    let newBalance := walletBalance db2 userId
    let db3 := appendTx db2
      { userId := userId, type := .credit, amount := amt
        description := description, referenceId := none, balanceAfter := newBalance }
    .ok (newBalance, db3)

/-- `debitWallet(userId, amount, orderId, description)` — the balance
check happens against the row read under the exclusive lock. -/
def debitWallet (db : DB) (userId : Nat) (amount : ℚ) (orderId : Nat)
    (description : String := "Order payment") : Except String (ℚ × DB) :=
  if amount ≤ 0 then .error "Invalid debit amount"
  else
    match db.wallets.find? (fun w => w.userId == userId) with
    | none => .error "Wallet not found"
    | some wallet =>
        if wallet.balance < amount then .error "Insufficient wallet balance"
        else
          let amt := round2 amount
          let db1 := bumpWalletBalance db userId (-amt)
          let newBalance := walletBalance db1 userId
          let db2 := appendTx db1
            { userId := userId, type := .debit, amount := amt
              description := description, referenceId := some orderId
              balanceAfter := newBalance }
          .ok (newBalance, db2)

-- ─── Coupon service (src/services/coupon.service.js) ─────────────────────────

/-- The shape returned by a successful `validateCoupon`. -/
structure CouponValidation where
  couponId : Nat
  code : String
  type : CouponType
  value : ℚ
  discountAmount : ℚ
deriving Repr, DecidableEq

/-- Number of redemption-ledger rows for (user, coupon). -/
def couponUsageCount (db : DB) (userId couponId : Nat) : Nat :=
  (db.couponUsage.filter (fun u => u.userId == userId && u.couponId == couponId)).length

/-- `validateCoupon(code, userId, subtotal)`.  The JavaScript first
normalizes the input with `code.trim().toUpperCase()` (and rejects a
code that trims to the empty string); the model takes that normalized
string as its `code` argument, so the comparison against the stored
(already upper-cased) `coupons.code` column is plain equality. -/
def validateCoupon (db : DB) (code : String) (userId : Nat) (subtotal : ℚ) :
    Except String CouponValidation :=
  if code = "" then .error "Coupon code is required"
  else
    match db.coupons.find? (fun c => c.code == code) with
    | none => .error "Invalid or expired coupon code"
    | some coupon =>
        if !coupon.isActive then .error "Invalid or expired coupon code"
        else if coupon.expired then .error "This coupon has expired"
        else if (match coupon.usageLimit with
                 | some l => decide (l ≤ coupon.usedCount)
                 | none => false) then .error "This coupon has reached its usage limit"
        else if subtotal < coupon.minOrder then
          .error "Minimum order required to use this coupon"
        else if coupon.perUserLimit ≤ couponUsageCount db userId coupon.id then
          .error "You have already used this coupon"
        else
          let raw : ℚ :=
            match coupon.type with
            | .flat => coupon.value
            | .percentage =>
                let d := subtotal * coupon.value / 100
                match coupon.maxDiscount with
                | some m => min d m
                | none => d
          -- the discount can never exceed the subtotal
          let discountAmount := min raw subtotal
          .ok { couponId := coupon.id, code := coupon.code, type := coupon.type
                value := coupon.value, discountAmount := round2 discountAmount }

/-- `recordCouponUsage(couponId, userId, orderId)` — post-commit:
insert one redemption row and bump the coupon's `usedCount`. -/
def recordCouponUsage (db : DB) (couponId userId orderId : Nat) : DB :=
  let newUsage := db.couponUsage ++ [{ userId := userId, couponId := couponId, orderId := some orderId }]
  let newCoupons := db.coupons.map
    (fun c => if c.id == couponId then { c with usedCount := c.usedCount + 1 } else c)
  { db with couponUsage := newUsage, coupons := newCoupons }

-- ─── Order service (src/services/order.service.js) ───────────────────────────

/-- Takeaway-only state machine (customer/admin path). -/
def STATE_TRANSITIONS : OrderStatus → List OrderStatus
  | .pending => [.paid, .cancelled]
  | .paid => [.confirmed, .cancelled]
  | .confirmed => [.preparing, .cancelled]
  | .preparing => [.ready]
  | .ready => [.collected]
  | .collected => []
  | .cancelled => []

/-- Owner state machine (src/routes/coupon.routes.js).  The JavaScript
object holds only the four listed keys; `OWNER_TRANSITIONS[s] ?? []`
makes every other status terminal for the owner. -/
def OWNER_TRANSITIONS : OrderStatus → List OrderStatus
  | .pending => [.confirmed]
  | .confirmed => [.preparing]
  | .preparing => [.ready]
  | .ready => [.collected]
  | _ => []

structure CreateOrderParams where
  notes : Option String := none
  pickupName : Option String := none
  idempotencyKey : Option String := none
  useWallet : Bool := false
  couponCode : Option String := none
deriving Repr, DecidableEq

/-- The idempotency lookup guarded by `if (idempotencyKey)` — a JS
truthiness test, false for null and for the empty string. -/
def idemLookup (db : DB) (userId : Nat) : Option String → Option Order
  | none => none
  | some k =>
      if k = "" then none
      else db.orders.find? (fun o => o.userId == userId && o.idempotencyKey == some k)

/-- `getOrderById(orderId, userId?)` restricted to the order row (the
JavaScript additionally joins the items and restaurant name). -/
def getOrderById (db : DB) (orderId : Nat) (userId : Option Nat) : Except String Order :=
  let found := db.orders.find?
    (fun o => o.id == orderId && (match userId with | some u => o.userId == u | none => true))
  match found with
  | none => .error "Order not found"
  | some o => .ok o

/-- Orders carrying a given non-null idempotency key for a user. -/
def ordersWithKey (db : DB) (userId : Nat) (k : String) : List Order :=
  db.orders.filter (fun o => o.userId == userId && o.idempotencyKey == some k)

/-- Steps 2-4 of `createOrder`: load the cart (failing on an empty or
absent one), load and gate the restaurant, and enforce its minimum
order against the engine subtotal. -/
def checkoutValidate (db : DB) (userId : Nat) :
    Except String (Cart × List DetailedCartItem × Pricing × Restaurant) :=
  match getCart db userId with
  | .error e => .error e
  | .ok (none, _, _) => .error "Your cart is empty"
  | .ok (some cart, items, pricing) =>
    if items.isEmpty then .error "Your cart is empty"
    else match db.restaurants.find? (fun r => r.id == cart.restaurantId) with
    | none => .error "Restaurant not found"
    | some restaurant =>
      if !restaurant.isActive then .error "This restaurant is currently not available"
      else if restaurant.isOpen == false then
        .error "This restaurant is currently not accepting orders"
      else if pricing.subtotal < restaurant.minOrder then
        .error "Minimum order not met"
      else .ok (cart, items, pricing, restaurant)

/-- Step 5: pre-commit coupon validation.  `if (couponCode)` is a JS
truthiness test, skipped for null and for the empty string. -/
def couponStep (db : DB) (userId : Nat) (couponCode : Option String) (subtotal : ℚ) :
    Except String (Option CouponValidation) :=
  match couponCode with
  | some c =>
      if c = "" then .ok none
      else (validateCoupon db c userId subtotal).map some
  | none => .ok none

/-- Step 7: the soft wallet reservation
`max(0, min(balance, finalTotal))` when wallet payment is requested
(`getOrCreateWallet` may insert a zero-balance wallet row). -/
def walletReserve (db : DB) (userId : Nat) (useWallet : Bool) (finalTotal : ℚ) : ℚ × DB :=
  if useWallet then
    ((getOrCreateWallet db userId).1.balance ⊓ finalTotal ⊔ 0, (getOrCreateWallet db userId).2)
  else (0, db)

/-- The immutable order-line snapshots of step 8 (`name` re-read from
the menu item table, prices via `toFixed(2)`). -/
def orderLinesOf (db0 : DB) (orderId : Nat) (items : List DetailedCartItem) : List OrderItem :=
  items.map (fun item =>
    { orderId := orderId
      menuItemId := item.item.menuItemId
      name := (match db0.menuItems.find? (fun m => m.id == item.item.menuItemId) with
               | some m => m.name
               | none => "Unknown Item")
      variantName := item.variant.map (fun v => v.name)
      addOns := item.item.addOns
      quantity := item.item.quantity
      unitPrice := round2 item.unitPrice
      totalPrice := round2 item.totalPrice })

/-- The order row inserted by step 8. -/
def orderRowOf (db0 : DB) (userId : Nat) (p : CreateOrderParams) (cart : Cart)
    (pricing : Pricing) (totalDiscountAmount finalTotal walletDebitAmount : ℚ)
    (restaurant : Restaurant) : Order :=
  { id := db0.nextId, userId := userId, restaurantId := cart.restaurantId
    status := .pending
    subtotal := round2 pricing.subtotal
    discountAmount := round2 totalDiscountAmount
    totalAmount := round2 finalTotal
    couponCode := p.couponCode
    walletAmountUsed := round2 walletDebitAmount
    pickupName := p.pickupName
    notes := p.notes
    preparationTime := restaurant.preparationTime.getD 20
    idempotencyKey := p.idempotencyKey }

/-- Step 8, the single atomic unit of work: insert the order row,
insert its line snapshots, delete the cart lines and the cart. -/
def commitOrder (db0 : DB) (cart : Cart) (order : Order) (lines : List OrderItem) : DB :=
  { db0 with orders := db0.orders ++ [order]
             orderItems := db0.orderItems ++ lines
             cartItems := db0.cartItems.filter (fun i => !(i.cartId == cart.id))
             carts := db0.carts.filter (fun c => !(c.id == cart.id))
             nextId := db0.nextId + 1 }

/-- Step 9: post-commit, best-effort side effects; a failed wallet
debit is swallowed (`.catch(logger.error)`) and never rolls the order
back. -/
def postCommitEffects (db1 : DB) (userId orderId : Nat) (walletDebitAmount : ℚ)
    (couponData : Option CouponValidation) : DB :=
  let db2 :=
    if 0 < walletDebitAmount then
      match debitWallet db1 userId walletDebitAmount orderId with
      | .ok (_, dbd) => dbd
      | .error _ => db1
    else db1
  match couponData with
  | some cd => recordCouponUsage db2 cd.couponId userId orderId
  | none => db2

/-- The coupon component of the order discount. -/
def couponDiscount : Option CouponValidation → ℚ
  | some cd => cd.discountAmount
  | none => 0

/-- `finalTotal = max(0, subtotal − discountAmount)` (step 6). -/
def finalTotalOf (pricing : Pricing) (couponData : Option CouponValidation) : ℚ :=
  max 0 (pricing.subtotal - (pricing.discountAmount + couponDiscount couponData))

/-- The database after the soft wallet reservation of step 7 (a
zero-balance wallet row may have been created). -/
def reservedDB (db : DB) (userId : Nat) (p : CreateOrderParams) (pricing : Pricing)
    (couponData : Option CouponValidation) : DB :=
  (walletReserve db userId p.useWallet (finalTotalOf pricing couponData)).2

/-- The soft wallet reservation amount of step 7. -/
def reservedAmt (db : DB) (userId : Nat) (p : CreateOrderParams) (pricing : Pricing)
    (couponData : Option CouponValidation) : ℚ :=
  (walletReserve db userId p.useWallet (finalTotalOf pricing couponData)).1

/-- The order row inserted by this checkout. -/
def newOrderRow (db : DB) (userId : Nat) (p : CreateOrderParams) (cart : Cart)
    (pricing : Pricing) (restaurant : Restaurant)
    (couponData : Option CouponValidation) : Order :=
  orderRowOf (reservedDB db userId p pricing couponData) userId p cart pricing
    (pricing.discountAmount + couponDiscount couponData)
    (finalTotalOf pricing couponData)
    (reservedAmt db userId p pricing couponData) restaurant

/-- The database after the atomic commit and the post-commit side
effects. -/
def committedDB (db : DB) (userId : Nat) (p : CreateOrderParams) (cart : Cart)
    (items : List DetailedCartItem) (pricing : Pricing) (restaurant : Restaurant)
    (couponData : Option CouponValidation) : DB :=
  postCommitEffects
    (commitOrder (reservedDB db userId p pricing couponData) cart
      (newOrderRow db userId p cart pricing restaurant couponData)
      (orderLinesOf (reservedDB db userId p pricing couponData)
        (reservedDB db userId p pricing couponData).nextId items))
    userId
    (newOrderRow db userId p cart pricing restaurant couponData).id
    (reservedAmt db userId p pricing couponData)
    couponData

/-- Steps 6-10 of `createOrder`, once validation and the coupon check
have passed: compute the totals and the soft wallet reservation,
commit the order atomically, run the post-commit side effects, and
re-read the created order. -/
def createOrderCommit (db : DB) (userId : Nat) (p : CreateOrderParams) (cart : Cart)
    (items : List DetailedCartItem) (pricing : Pricing) (restaurant : Restaurant)
    (couponData : Option CouponValidation) : Except String (Order × DB) :=
  match getOrderById (committedDB db userId p cart items pricing restaurant couponData)
      (newOrderRow db userId p cart pricing restaurant couponData).id (some userId) with
  | .error e => .error e
  | .ok result =>
      .ok (result, committedDB db userId p cart items pricing restaurant couponData)

/-- The fresh-creation path of `createOrder` (everything after the
idempotency lookup misses). -/
def createOrderFresh (db : DB) (userId : Nat) (p : CreateOrderParams) :
    Except String (Order × DB) :=
  match checkoutValidate db userId with
  | .error e => .error e
  | .ok (cart, items, pricing, restaurant) =>
      match couponStep db userId p.couponCode pricing.subtotal with
      | .error e => .error e
      | .ok couponData =>
          createOrderCommit db userId p cart items pricing restaurant couponData

/-- `createOrder(userId, {notes, pickupName, idempotencyKey, useWallet,
couponCode})`: an idempotency-lookup hit returns the existing order
unchanged and touches nothing. -/
def createOrder (db : DB) (userId : Nat) (p : CreateOrderParams) :
    Except String (Order × DB) :=
  match idemLookup db userId p.idempotencyKey with
  | some existing => (getOrderById db existing.id (some userId)).map (fun o => (o, db))
  | none => createOrderFresh db userId p

/-- Apply `f` to the order row with the given id
(`UPDATE orders ... WHERE id = $1`). -/
def mapOrderRow (db : DB) (orderId : Nat) (f : Order → Order) : DB :=
  { db with orders := db.orders.map (fun o => if o.id == orderId then f o else o) }

/-- The wallet-refund arm of `cancelOrder`: upsert the wallet row,
credit it, and record one ledger row carrying the post-credit
balance. -/
def cancelRefund (db1 : DB) (orderId userId : Nat) (walletUsed : ℚ) : DB :=
  appendTx (bumpWalletBalance (ensureWallet db1 userId) userId (round2 walletUsed))
    { userId := userId, type := .credit, amount := round2 walletUsed
      description := "Order Cancel Refund", referenceId := some orderId
      balanceAfter :=
        walletBalance (bumpWalletBalance (ensureWallet db1 userId) userId (round2 walletUsed)) userId }

/-- `cancelOrder(orderId, userId)`: status flip to `cancelled` and any
wallet refund commit in the same transaction. -/
def cancelOrder (db : DB) (orderId userId : Nat) : Except String (Order × DB) :=
  match db.orders.find? (fun o => o.id == orderId && o.userId == userId) with
  | none => .error "Order not found"
  | some order =>
      if !(order.status == .pending || order.status == .paid) then
        .error "Cannot cancel - only pending or paid orders can be cancelled"
      else if 0 < order.walletAmountUsed then
        .ok ({ order with status := .cancelled },
             cancelRefund (mapOrderRow db orderId (fun o => { o with status := .cancelled }))
               orderId userId order.walletAmountUsed)
      else
        .ok ({ order with status := .cancelled },
             mapOrderRow db orderId (fun o => { o with status := .cancelled }))

/-- `updateOrderStatus(orderId, newStatus, preparationTime)` — the
admin path, driven by `STATE_TRANSITIONS`; a supplied
`preparationTime` is stored alongside the new status. -/
def updateOrderStatus (db : DB) (orderId : Nat) (newStatus : OrderStatus)
    (preparationTime : Option Nat) : Except String (Order × DB) :=
  match db.orders.find? (fun o => o.id == orderId) with
  | none => .error "Order not found"
  | some order =>
      if !((STATE_TRANSITIONS order.status).contains newStatus) then
        .error "Invalid transition"
      else
        .ok ({ order with status := newStatus
                          preparationTime := preparationTime.getD order.preparationTime },
             mapOrderRow db orderId (fun o =>
               { o with status := newStatus
                        preparationTime := preparationTime.getD o.preparationTime }))

/-- `PATCH /owner/order/:id/status` — the owner path, driven by
`OWNER_TRANSITIONS`; `preparationTime` is accepted only when
confirming, and must then be at least one minute. -/
def ownerUpdateOrderStatus (db : DB) (restaurantId orderId : Nat)
    (newStatus : OrderStatus) (preparationTime : Option Nat) :
    Except String (Order × DB) :=
  match db.orders.find? (fun o => o.id == orderId && o.restaurantId == restaurantId) with
  | none => .error "Forbidden - order not found or does not belong to your restaurant"
  | some order =>
      if !((OWNER_TRANSITIONS order.status).contains newStatus) then
        .error "Invalid transition"
      else
        match preparationTime with
        | some mins =>
            if newStatus == .confirmed then
              if mins < 1 then .error "preparationTime must be a positive integer (minutes)"
              else
                .ok ({ order with status := newStatus, preparationTime := mins },
                     mapOrderRow db orderId (fun o =>
                       { o with status := newStatus, preparationTime := mins }))
            else
              .ok ({ order with status := newStatus },
                   mapOrderRow db orderId (fun o => { o with status := newStatus }))
        | none =>
            .ok ({ order with status := newStatus },
                 mapOrderRow db orderId (fun o => { o with status := newStatus }))

-- ─── Arithmetic lemmas about 2-decimal rounding ──────────────────────────────

theorem round2_zero : round2 0 = 0 := by
  unfold round2; norm_num

theorem round2_intdiv (n : ℤ) : round2 ((n : ℚ) / 100) = (n : ℚ) / 100 := by
  unfold round2
  rw [div_mul_cancel₀ _ (by norm_num : (100 : ℚ) ≠ 0), round_intCast]

theorem is2dp_iff {q : ℚ} : Is2dp q ↔ ∃ n : ℤ, q = (n : ℚ) / 100 := by
  constructor
  · intro h
    exact ⟨round (q * 100), h.symm⟩
  · rintro ⟨n, rfl⟩
    exact round2_intdiv n

theorem is2dp_round2 (q : ℚ) : Is2dp (round2 q) := by
  rw [is2dp_iff]
  exact ⟨round (q * 100), rfl⟩

theorem Is2dp.round2_eq {q : ℚ} (h : Is2dp q) : round2 q = q := h

theorem Is2dp.zero : Is2dp (0 : ℚ) := by
  rw [is2dp_iff]; exact ⟨0, by norm_num⟩

theorem Is2dp.add {a b : ℚ} (ha : Is2dp a) (hb : Is2dp b) : Is2dp (a + b) := by
  rw [is2dp_iff] at *
  obtain ⟨n, rfl⟩ := ha
  obtain ⟨m, rfl⟩ := hb
  exact ⟨n + m, by push_cast; ring⟩

theorem Is2dp.neg {a : ℚ} (ha : Is2dp a) : Is2dp (-a) := by
  rw [is2dp_iff] at *
  obtain ⟨n, rfl⟩ := ha
  exact ⟨-n, by push_cast; ring⟩

theorem Is2dp.sub {a b : ℚ} (ha : Is2dp a) (hb : Is2dp b) : Is2dp (a - b) := by
  have := ha.add hb.neg
  simpa [sub_eq_add_neg] using this

theorem Is2dp.min {a b : ℚ} (ha : Is2dp a) (hb : Is2dp b) : Is2dp (min a b) := by
  rcases le_total a b with h | h
  · rwa [min_eq_left h]
  · rwa [min_eq_right h]

theorem Is2dp.max {a b : ℚ} (ha : Is2dp a) (hb : Is2dp b) : Is2dp (max a b) := by
  rcases le_total a b with h | h
  · rwa [max_eq_right h]
  · rwa [max_eq_left h]

theorem round2_mono {a b : ℚ} (h : a ≤ b) : round2 a ≤ round2 b := by
  unfold round2
  have : round (a * 100) ≤ round (b * 100) := by
    rw [round_eq, round_eq]
    exact Int.floor_mono (by linarith)
  have hc : ((round (a * 100) : ℤ) : ℚ) ≤ ((round (b * 100) : ℤ) : ℚ) := by exact_mod_cast this
  gcongr

theorem round2_nonneg {q : ℚ} (h : 0 ≤ q) : 0 ≤ round2 q := by
  have := round2_mono h
  rwa [round2_zero] at this

-- ─── List helper lemmas ──────────────────────────────────────────────────────

/-- If every member of `l` satisfying `q` equals `x`, and `x` is a
member satisfying `q`, then `find?` returns `x`. -/
theorem find?_eq_of_unique {α} {q : α → Bool} {l : List α} {x : α}
    (hmem : x ∈ l) (hx : q x = true) (huniq : ∀ y ∈ l, q y = true → y = x) :
    l.find? q = some x := by
  induction l with
  | nil => cases hmem
  | cons a as ih =>
      rw [List.find?_cons]
      cases hqa : q a with
      | true => simp [huniq a (List.mem_cons_self a as) hqa]
      | false =>
          rcases List.mem_cons.mp hmem with rfl | hmem'
          · rw [hx] at hqa; cases hqa
          · exact ih hmem' (fun y hy hqy => huniq y (List.mem_cons_of_mem a hy) hqy)

/-- A list with pairwise-distinct images under `f`, all of whose
`q`-satisfying members are equal, has exactly one `q`-row when it has
at least one. -/
theorem length_filter_eq_one {α} {β} {q : α → Bool} {l : List α} {x : α} (f : α → β)
    (hnodup : (l.map f).Nodup) (hmem : x ∈ l) (hx : q x = true)
    (huniq : ∀ y ∈ l, q y = true → y = x) :
    (l.filter q).length = 1 := by
  induction l with
  | nil => cases hmem
  | cons a as ih =>
      rw [List.map_cons, List.nodup_cons] at hnodup
      rcases List.mem_cons.mp hmem with rfl | hmem'
      · -- head is the unique satisfying element: the tail contributes nothing
        rw [List.filter_cons, hx]
        have : as.filter q = [] := by
          rw [List.filter_eq_nil_iff]
          intro y hy hqy
          have hyx : y = x := huniq y (List.mem_cons_of_mem _ hy) hqy
          subst hyx
          exact absurd (List.mem_map_of_mem f hy) hnodup.1
        simp [this]
      · rw [List.filter_cons]
        have hqa : q a = false := by
          cases hqa : q a with
          | false => rfl
          | true =>
              have : a = x := huniq a (List.mem_cons_self a as) hqa
              subst this
              exact absurd (List.mem_map_of_mem f hmem') hnodup.1
        rw [hqa]
        simp only [Bool.false_eq_true, if_false]
        exact ih hnodup.2 hmem' (fun y hy hqy => huniq y (List.mem_cons_of_mem a hy) hqy)

-- ─── Concrete fixtures for the example scenarios ─────────────────────────────

def restW : Restaurant :=
  { id := 10, name := "Pizzeria", preparationTime := some 20, minOrder := 0
    isActive := true, isOpen := true }

def pizzaW : MenuItem :=
  { id := 100, restaurantId := 10, name := "Pizza", basePrice := 250, isAvailable := true }

def cartW : Cart := { id := 500, userId := 1, restaurantId := 10 }

def lineW : CartItem :=
  { id := 501, cartId := 500, menuItemId := 100, variantId := none, addOns := [], quantity := 2 }

/-- "SAVE10": 10 percent off, capped at 50, one use per user. -/
def save10 : Coupon :=
  { id := 700, code := "SAVE10", type := .percentage, value := 10, minOrder := 0
    maxDiscount := some 50, expired := false, usageLimit := none, usedCount := 0
    perUserLimit := 1, isActive := true }

/-- User 1 has a two-pizza cart (subtotal 500) and wallet balance 1000. -/
def dbW : DB :=
  { emptyDB with
      restaurants := [restW], menuItems := [pizzaW], carts := [cartW], cartItems := [lineW]
      wallets := [{ userId := 1, balance := 1000 }], coupons := [save10], nextId := 1000 }

def paramsW : CreateOrderParams :=
  { idempotencyKey := some "key1", useWallet := true, couponCode := some "SAVE10" }

-- ─── C10: wallet top-up bounds ───────────────────────────────────────────────

/-- C10: `addMoney(userId, amount)` fails with a validation error and
performs no wallet or ledger mutation (an error result carries no new
state) whenever the amount is not strictly positive or exceeds 50,000;
conversely every successful call had 0 < amount ≤ 50000. -/
theorem addMoney_limit (db : DB) (u : Nat) (amount : ℚ) :
    ((amount ≤ 0 ∨ 50000 < amount) → ∃ e, addMoney db u amount = .error e) ∧
    (∀ r db', addMoney db u amount = .ok (r, db') → 0 < amount ∧ amount ≤ 50000) := by
  constructor
  · rintro (h | h)
    · exact ⟨"Amount must be a positive number", by unfold addMoney; rw [if_pos h]⟩
    · refine ⟨"Cannot add more than 50,000 at once", ?_⟩
      unfold addMoney
      rw [if_neg (by linarith), if_pos h]
  · intro r db' h
    unfold addMoney at h
    by_cases h1 : amount ≤ 0
    · rw [if_pos h1] at h; cases h
    · rw [if_neg h1] at h
      by_cases h2 : (50000 : ℚ) < amount
      · rw [if_pos h2] at h; cases h
      · exact ⟨lt_of_not_le h1, le_of_not_lt h2⟩

theorem addMoney_limit_witness :
    ((60000 : ℚ) ≤ 0 ∨ (50000 : ℚ) < 60000) ∧ (∃ e, addMoney emptyDB 1 60000 = .error e) :=
  ⟨Or.inr (by norm_num), (addMoney_limit emptyDB 1 60000).1 (Or.inr (by norm_num))⟩

-- ─── C5: order status state machine ──────────────────────────────────────────

/-- C5: the admin path accepts a status update only along
`STATE_TRANSITIONS` and the owner path only along `OWNER_TRANSITIONS`;
any other transition is rejected with an error (leaving the state
untouched — an error result carries no new state); the two tables are
exactly the ones stated, and `collected` and `cancelled` have no
outbound transitions on either path. -/
theorem order_state_machine :
    (∀ (db : DB) (oid : Nat) (ns : OrderStatus) (pt : Option Nat) (o' : Order) (db' : DB),
        updateOrderStatus db oid ns pt = .ok (o', db') →
        ∃ order, db.orders.find? (fun o => o.id == oid) = some order ∧
          ns ∈ STATE_TRANSITIONS order.status ∧ o'.status = ns) ∧
    (∀ (db : DB) (oid : Nat) (ns : OrderStatus) (pt : Option Nat) (order : Order),
        db.orders.find? (fun o => o.id == oid) = some order →
        ns ∉ STATE_TRANSITIONS order.status →
        ∃ e, updateOrderStatus db oid ns pt = .error e) ∧
    (∀ (db : DB) (rid oid : Nat) (ns : OrderStatus) (pt : Option Nat) (o' : Order) (db' : DB),
        ownerUpdateOrderStatus db rid oid ns pt = .ok (o', db') →
        ∃ order, db.orders.find? (fun o => o.id == oid && o.restaurantId == rid) = some order ∧
          ns ∈ OWNER_TRANSITIONS order.status ∧ o'.status = ns) ∧
    (∀ (db : DB) (rid oid : Nat) (ns : OrderStatus) (pt : Option Nat) (order : Order),
        db.orders.find? (fun o => o.id == oid && o.restaurantId == rid) = some order →
        ns ∉ OWNER_TRANSITIONS order.status →
        ∃ e, ownerUpdateOrderStatus db rid oid ns pt = .error e) ∧
    (STATE_TRANSITIONS .pending = [.paid, .cancelled] ∧
     STATE_TRANSITIONS .paid = [.confirmed, .cancelled] ∧
     STATE_TRANSITIONS .confirmed = [.preparing, .cancelled] ∧
     STATE_TRANSITIONS .preparing = [.ready] ∧
     STATE_TRANSITIONS .ready = [.collected] ∧
     STATE_TRANSITIONS .collected = [] ∧
     STATE_TRANSITIONS .cancelled = []) ∧
    (OWNER_TRANSITIONS .pending = [.confirmed] ∧
     OWNER_TRANSITIONS .confirmed = [.preparing] ∧
     OWNER_TRANSITIONS .preparing = [.ready] ∧
     OWNER_TRANSITIONS .ready = [.collected] ∧
     OWNER_TRANSITIONS .paid = [] ∧
     OWNER_TRANSITIONS .collected = [] ∧
     OWNER_TRANSITIONS .cancelled = []) := by
  refine ⟨?_, ?_, ?_, ?_, ?_, ?_⟩
  · intro db oid ns pt o' db' h
    unfold updateOrderStatus at h
    split at h
    · cases h
    · rename_i order hfind
      split at h
      · cases h
      · rename_i hcond
        cases h
        exact ⟨order, hfind, by simpa using hcond, rfl⟩
  · intro db oid ns pt order hfind hns
    have hc : (STATE_TRANSITIONS order.status).contains ns = false := by simpa using hns
    refine ⟨"Invalid transition", ?_⟩
    simp only [updateOrderStatus, hfind, hc]
    simp [hns]
  · intro db rid oid ns pt o' db' h
    unfold ownerUpdateOrderStatus at h
    split at h
    · cases h
    · rename_i order hfind
      split at h
      · cases h
      · rename_i hcond
        split at h
        · split at h
          · split at h
            · cases h
            · cases h
              exact ⟨order, hfind, by simpa using hcond, rfl⟩
          · cases h
            exact ⟨order, hfind, by simpa using hcond, rfl⟩
        · cases h
          exact ⟨order, hfind, by simpa using hcond, rfl⟩
  · intro db rid oid ns pt order hfind hns
    have hc : (OWNER_TRANSITIONS order.status).contains ns = false := by simpa using hns
    refine ⟨"Invalid transition", ?_⟩
    simp only [ownerUpdateOrderStatus, hfind, hc]
    simp [hns]
  · exact ⟨rfl, rfl, rfl, rfl, rfl, rfl, rfl⟩
  · exact ⟨rfl, rfl, rfl, rfl, rfl, rfl, rfl⟩

/-- A placed order fixture sitting in `ready`. -/
def orderReadyW : Order :=
  { id := 7, userId := 1, restaurantId := 10, status := .ready
    subtotal := 500, discountAmount := 0, totalAmount := 500, couponCode := none
    walletAmountUsed := 0, pickupName := none, notes := none
    preparationTime := 20, idempotencyKey := none }

def dbReadyW : DB := { emptyDB with orders := [orderReadyW] }

/-- An order in `ready` cannot be moved back to `confirmed`. -/
theorem order_state_machine_witness :
    (dbReadyW.orders.find? (fun o => o.id == 7) = some orderReadyW) ∧
    (OrderStatus.confirmed ∉ STATE_TRANSITIONS .ready) ∧
    ∃ e, updateOrderStatus dbReadyW 7 .confirmed none = .error e := by
  refine ⟨rfl, by decide, ?_⟩
  exact (order_state_machine.2.1) dbReadyW 7 .confirmed none orderReadyW rfl (by decide)

-- ─── C8: cart deduplication ──────────────────────────────────────────────────

/-- Fixture for the two-identical-adds scenario: one available menu
item, user 1 has no cart yet. -/
def dbDup : DB := { emptyDB with restaurants := [restW], menuItems := [pizzaW], nextId := 50 }

def reqDup : AddToCartReq := { menuItemId := 100, variantId := none, addOnIds := [], quantity := 1 }

/-- C8: when the user's cart already holds a line with the same
(menuItemId, null-safe variantId, sorted add-on id set) — the match
taken by `rowMatchesReq` on the stored snapshot — `addToCart`
increments that line's quantity by the requested quantity and inserts
no new row; and two identical adds of quantity 1 each leave exactly
one cart line with quantity 2. -/
theorem addToCart_dedup :
    (∀ (db : DB) (u : Nat) (req : AddToCartReq) (item : MenuItem) (cart : Cart) (row : CartItem),
        db.menuItems.find? (fun m => m.id == req.menuItemId && m.isAvailable) = some item →
        getOrCreateCartRow db u = some cart →
        cart.restaurantId = item.restaurantId →
        (db.cartItems.filter (fun r => r.cartId == cart.id && r.menuItemId == req.menuItemId)).find?
            (rowMatchesReq req) = some row →
        ∃ db', addToCart db u req =
            .ok ({ row with quantity := row.quantity + req.quantity }, db') ∧
          db'.cartItems.length = db.cartItems.length ∧ db'.carts = db.carts) ∧
    (((addToCart dbDup 1 reqDup).bind (fun x => addToCart x.2 1 reqDup)).map
        (fun y => (y.1.quantity, y.2.cartItems.length)) = .ok (2, 1)) := by
  constructor
  · intro db u req item cart row hitem hcart hrest hmatch
    have hmain : addToCart db u req =
        .ok ({ row with quantity := row.quantity + req.quantity },
             { db with cartItems := db.cartItems.map (fun r =>
                 if r.id == row.id then { row with quantity := row.quantity + req.quantity } else r) }) := by
      simp only [addToCart, hitem, hcart]
      rw [if_neg (by simp [hrest])]
      simp only [addToCartInCart, hmatch]
    exact ⟨_, hmain, by simp, rfl⟩
  · rfl

theorem addToCart_dedup_witness :
    (dbDup.menuItems.find? (fun m => m.id == reqDup.menuItemId && m.isAvailable) = some pizzaW) ∧
    ∃ db', addToCart
        { dbDup with carts := [cartW], cartItems := [lineW] } 1 reqDup =
        .ok ({ lineW with quantity := lineW.quantity + 1 }, db') ∧
      db'.cartItems.length = 1 ∧ db'.carts = [cartW] := by
  refine ⟨rfl, ?_⟩
  exact (addToCart_dedup.1 { dbDup with carts := [cartW], cartItems := [lineW] }
      1 reqDup pizzaW cartW lineW rfl rfl rfl rfl)

-- ─── C6: pricing-engine behaviour on missing / unavailable lines ─────────────

/-- A cart whose only line references a menu item that no longer
exists. -/
def dbMissing : DB := { emptyDB with carts := [cartW], cartItems := [lineW] }

/-- A cart whose only line references a menu item marked
unavailable. -/
def dbUnavail : DB :=
  { emptyDB with menuItems := [{ pizzaW with isAvailable := false }]
                 carts := [cartW], cartItems := [lineW] }

/-- C6 counterexample: a line whose menu item row is gone makes the
whole detail computation throw (nothing is excluded or surfaced), and
a line whose menu item is unavailable is still priced into the
subtotal (250 each, quantity 2) instead of being excluded. -/
theorem pricing_excludes_nothing :
    (_getCartItemsWithDetails dbMissing 500 =
       .error "TypeError: cannot read basePrice of undefined menu item") ∧
    ((_getCartItemsWithDetails dbUnavail 500).map _calculatePricing =
       .ok { subtotal := 500, discountAmount := 0, totalAmount := 500 }) := by
  constructor
  · rfl
  · show Except.map _calculatePricing (detailCartItems dbUnavail (cartRows dbUnavail 500)) = _
    have hrows : cartRows dbUnavail 500 = [lineW] := rfl
    rw [hrows]
    show Except.map _calculatePricing
        (match detailCartItem dbUnavail lineW with
         | .error e => .error e
         | .ok d => match (Except.ok [] : Except String (List DetailedCartItem)) with
           | .error e => .error e
           | .ok ds => .ok (d :: ds)) = _
    have hdi : detailCartItem dbUnavail lineW =
        .ok { item := lineW, menuItemName := "Pizza", variant := none
              unitPrice := 250 + addOnPriceSum []
              totalPrice := (250 + addOnPriceSum []) * (2 : ℚ) } := rfl
    rw [hdi]
    show Except.ok (_calculatePricing [_]) = _
    unfold _calculatePricing
    simp only [List.foldl, addOnPriceSum, Except.ok.injEq, Pricing.mk.injEq]
    norm_num [round2, round_eq]

theorem detailCartItem_error_of_missing {db : DB} {i : CartItem}
    (h : db.menuItems.find? (fun x => x.id == i.menuItemId) = none) :
    detailCartItem db i = .error "TypeError: cannot read basePrice of undefined menu item" := by
  unfold detailCartItem
  rw [h]

theorem detailCartItem_ok_of_found {db : DB} {i : CartItem} {m : MenuItem}
    (h : db.menuItems.find? (fun x => x.id == i.menuItemId) = some m) :
    ∃ d, detailCartItem db i = .ok d ∧ d.item = i := by
  unfold detailCartItem
  rw [h]
  exact ⟨_, rfl, rfl⟩

theorem detailCartItems_ok {db : DB} : ∀ {l : List CartItem},
    (∀ i ∈ l, ∃ m ∈ db.menuItems, m.id = i.menuItemId) →
    ∃ ds, detailCartItems db l = .ok ds ∧ ds.map (fun d => d.item) = l := by
  intro l
  induction l with
  | nil => exact fun _ => ⟨[], rfl, rfl⟩
  | cons a rest ih =>
      intro h
      obtain ⟨m, hm, hmid⟩ := h a (List.mem_cons_self a rest)
      have hfind : (db.menuItems.find? (fun x => x.id == a.menuItemId)).isSome := by
        rw [List.find?_isSome]
        exact ⟨m, hm, by simp [hmid]⟩
      obtain ⟨m', hm'⟩ := Option.isSome_iff_exists.mp hfind
      obtain ⟨d, hd, hdi⟩ := detailCartItem_ok_of_found hm'
      obtain ⟨ds, hds, hmap⟩ := ih (fun i hi => h i (List.mem_cons_of_mem a hi))
      refine ⟨d :: ds, ?_, ?_⟩
      · unfold detailCartItems
        rw [hd, hds]
      · simp [hdi, hmap]

theorem detailCartItems_error {db : DB} : ∀ {l : List CartItem} {i : CartItem},
    i ∈ l → (∀ m ∈ db.menuItems, m.id ≠ i.menuItemId) →
    detailCartItems db l = .error "TypeError: cannot read basePrice of undefined menu item" := by
  intro l
  induction l with
  | nil => intro i hi; cases hi
  | cons a rest ih =>
      intro i hi hmiss
      rcases List.mem_cons.mp hi with rfl | hi'
      · have hf : db.menuItems.find? (fun x => x.id == i.menuItemId) = none := by
          rw [List.find?_eq_none]
          intro m hm
          simp [hmiss m hm]
        unfold detailCartItems
        rw [detailCartItem_error_of_missing hf]
      · cases hfa : db.menuItems.find? (fun x => x.id == a.menuItemId) with
        | none =>
            unfold detailCartItems
            rw [detailCartItem_error_of_missing hfa]
        | some m =>
            unfold detailCartItems detailCartItem
            rw [hfa, ih hi' hmiss]

/-- C6 amended: lines whose menu item row still exists are always
detailed and priced — availability is never consulted — and a line
whose menu item row is gone makes the whole computation fail with a
TypeError instead of being excluded. -/
theorem pricing_includes_every_line :
    (∀ (db : DB) (cid : Nat),
        (∀ i ∈ cartRows db cid, ∃ m ∈ db.menuItems, m.id = i.menuItemId) →
        ∃ l, _getCartItemsWithDetails db cid = .ok l ∧
          l.map (fun d => d.item) = cartRows db cid) ∧
    (∀ (db : DB) (cid : Nat) (i : CartItem),
        i ∈ cartRows db cid →
        (∀ m ∈ db.menuItems, m.id ≠ i.menuItemId) →
        _getCartItemsWithDetails db cid =
          .error "TypeError: cannot read basePrice of undefined menu item") := by
  constructor
  · intro db cid h
    exact detailCartItems_ok h
  · intro db cid i hi hmiss
    exact detailCartItems_error hi hmiss

theorem pricing_includes_every_line_witness :
    ((∀ i ∈ cartRows dbUnavail 500, ∃ m ∈ dbUnavail.menuItems, m.id = i.menuItemId) ∧
      ∃ l, _getCartItemsWithDetails dbUnavail 500 = .ok l ∧
        l.map (fun d => d.item) = cartRows dbUnavail 500) ∧
    ((lineW ∈ cartRows dbMissing 500) ∧
      _getCartItemsWithDetails dbMissing 500 =
        .error "TypeError: cannot read basePrice of undefined menu item") := by
  constructor
  · exact ⟨by decide, pricing_includes_every_line.1 dbUnavail 500 (by decide)⟩
  · exact ⟨by decide, pricing_includes_every_line.2 dbMissing 500 lineW (by decide) (by decide)⟩

-- ─── Projection lemmas for the state-update helpers ──────────────────────────

@[simp] theorem ensureWallet_couponUsage (db : DB) (u : Nat) :
    (ensureWallet db u).couponUsage = db.couponUsage := by
  unfold ensureWallet; split <;> rfl

@[simp] theorem ensureWallet_coupons (db : DB) (u : Nat) :
    (ensureWallet db u).coupons = db.coupons := by
  unfold ensureWallet; split <;> rfl

@[simp] theorem ensureWallet_orders (db : DB) (u : Nat) :
    (ensureWallet db u).orders = db.orders := by
  unfold ensureWallet; split <;> rfl

@[simp] theorem ensureWallet_walletTxs (db : DB) (u : Nat) :
    (ensureWallet db u).walletTxs = db.walletTxs := by
  unfold ensureWallet; split <;> rfl

@[simp] theorem bumpWalletBalance_couponUsage (db : DB) (u : Nat) (d : ℚ) :
    (bumpWalletBalance db u d).couponUsage = db.couponUsage := rfl

@[simp] theorem bumpWalletBalance_coupons (db : DB) (u : Nat) (d : ℚ) :
    (bumpWalletBalance db u d).coupons = db.coupons := rfl

@[simp] theorem bumpWalletBalance_orders (db : DB) (u : Nat) (d : ℚ) :
    (bumpWalletBalance db u d).orders = db.orders := rfl

@[simp] theorem bumpWalletBalance_walletTxs (db : DB) (u : Nat) (d : ℚ) :
    (bumpWalletBalance db u d).walletTxs = db.walletTxs := rfl

@[simp] theorem appendTx_couponUsage (db : DB) (t : WalletTx) :
    (appendTx db t).couponUsage = db.couponUsage := rfl

@[simp] theorem appendTx_coupons (db : DB) (t : WalletTx) :
    (appendTx db t).coupons = db.coupons := rfl

@[simp] theorem appendTx_orders (db : DB) (t : WalletTx) :
    (appendTx db t).orders = db.orders := rfl

@[simp] theorem appendTx_wallets (db : DB) (t : WalletTx) :
    (appendTx db t).wallets = db.wallets := rfl

@[simp] theorem appendTx_walletTxs (db : DB) (t : WalletTx) :
    (appendTx db t).walletTxs = db.walletTxs ++ [t] := rfl

@[simp] theorem mapOrderRow_couponUsage (db : DB) (oid : Nat) (f : Order → Order) :
    (mapOrderRow db oid f).couponUsage = db.couponUsage := rfl

@[simp] theorem mapOrderRow_coupons (db : DB) (oid : Nat) (f : Order → Order) :
    (mapOrderRow db oid f).coupons = db.coupons := rfl

@[simp] theorem mapOrderRow_wallets (db : DB) (oid : Nat) (f : Order → Order) :
    (mapOrderRow db oid f).wallets = db.wallets := rfl

@[simp] theorem mapOrderRow_walletTxs (db : DB) (oid : Nat) (f : Order → Order) :
    (mapOrderRow db oid f).walletTxs = db.walletTxs := rfl

@[simp] theorem cancelRefund_couponUsage (db : DB) (oid u : Nat) (w : ℚ) :
    (cancelRefund db oid u w).couponUsage = db.couponUsage := by
  unfold cancelRefund; simp

@[simp] theorem cancelRefund_coupons (db : DB) (oid u : Nat) (w : ℚ) :
    (cancelRefund db oid u w).coupons = db.coupons := by
  unfold cancelRefund; simp

@[simp] theorem cancelRefund_orders (db : DB) (oid u : Nat) (w : ℚ) :
    (cancelRefund db oid u w).orders = db.orders := by
  unfold cancelRefund; simp

-- ─── C9: per-user coupon cap against immutable redemption history ────────────

/-- C9: `cancelOrder` never deletes or decrements redemption rows (or
coupon counters); every successful `validateCoupon` saw a per-user
redemption count strictly below the cap; and once the redemption
ledger holds `perUserLimit` rows for (user, coupon), `validateCoupon`
rejects — a coupon with `perUserLimit = 1` therefore rejects a second
redemption even after the first order is cancelled. -/
theorem coupon_cap_immutable :
    (∀ (db : DB) (oid u : Nat) (o : Order) (db' : DB),
        cancelOrder db oid u = .ok (o, db') →
        db'.couponUsage = db.couponUsage ∧ db'.coupons = db.coupons) ∧
    (∀ (db : DB) (code : String) (u : Nat) (st : ℚ) (r : CouponValidation),
        validateCoupon db code u st = .ok r →
        ∃ c, db.coupons.find? (fun x => x.code == code) = some c ∧
          c.id = r.couponId ∧ couponUsageCount db u c.id < c.perUserLimit) ∧
    (∀ (db : DB) (code : String) (u : Nat) (st : ℚ) (c : Coupon),
        db.coupons.find? (fun x => x.code == code) = some c →
        code ≠ "" →
        c.isActive = true →
        c.expired = false →
        (match c.usageLimit with | some l => c.usedCount < l | none => True) →
        c.minOrder ≤ st →
        c.perUserLimit ≤ couponUsageCount db u c.id →
        validateCoupon db code u st = .error "You have already used this coupon") := by
  refine ⟨?_, ?_, ?_⟩
  · intro db oid u o db' h
    unfold cancelOrder at h
    split at h
    · cases h
    · split at h
      · cases h
      · split at h
        · cases h
          exact ⟨by simp, by simp⟩
        · cases h
          exact ⟨rfl, rfl⟩
  · intro db code u st r h
    unfold validateCoupon at h
    split at h
    · cases h
    · split at h
      · cases h
      · rename_i hne c hfind
        split at h
        · cases h
        · split at h
          · cases h
          · split at h
            · cases h
            · split at h
              · cases h
              · split at h
                · cases h
                · rename_i hcap
                  refine ⟨c, hfind, ?_, Nat.lt_of_not_le hcap⟩
                  cases h
                  rfl
  · intro db code u st c hfind hne hactive hexp hlimit hmin hcap
    unfold validateCoupon
    rw [if_neg hne]
    simp only [hfind]
    rw [if_neg (by simp [hactive])]
    rw [if_neg (by simp [hexp])]
    rw [if_neg ?hl]
    case hl =>
      cases hul : c.usageLimit with
      | none => simp
      | some l =>
          rw [hul] at hlimit
          simp [Nat.not_le.mpr hlimit]
    rw [if_neg (not_lt.mpr hmin)]
    rw [if_pos hcap]

/-- User 1 already redeemed SAVE10 on order 42; cancelling order 42
leaves the redemption ledger intact, and a second validation is
rejected. -/
def orderC9 : Order :=
  { id := 42, userId := 1, restaurantId := 10, status := .pending
    subtotal := 500, discountAmount := 50, totalAmount := 450, couponCode := some "SAVE10"
    walletAmountUsed := 0, pickupName := none, notes := none
    preparationTime := 20, idempotencyKey := none }

def dbC9 : DB :=
  { emptyDB with coupons := [save10]
                 orders := [orderC9]
                 couponUsage := [{ userId := 1, couponId := 700, orderId := some 42 }]
                 nextId := 1000 }

theorem coupon_cap_immutable_witness :
    ∃ o db', cancelOrder dbC9 42 1 = .ok (o, db') ∧
      db'.couponUsage = dbC9.couponUsage ∧
      validateCoupon db' "SAVE10" 1 500 = .error "You have already used this coupon" := by
  refine ⟨_, _, rfl, ?_, ?_⟩
  · exact (coupon_cap_immutable.1 dbC9 42 1 _ _ rfl).1
  · exact coupon_cap_immutable.2.2 _ "SAVE10" 1 500 save10 rfl (by decide) rfl rfl
      trivial (by norm_num [save10]) (by decide)

-- ─── The worked example scenario: subtotal 500, SAVE10, wallet 1000 ──────────

/-- The priced detail row of the two-pizza cart line. -/
def dW : DetailedCartItem :=
  { item := lineW, menuItemName := "Pizza", variant := none, unitPrice := 250, totalPrice := 500 }

def prW : Pricing := { subtotal := 500, discountAmount := 0, totalAmount := 500 }

def cvW : CouponValidation :=
  { couponId := 700, code := "SAVE10", type := .percentage, value := 10, discountAmount := 50 }

/-- The order the example checkout creates. -/
def oW : Order :=
  { id := 1000, userId := 1, restaurantId := 10, status := .pending
    subtotal := 500, discountAmount := 50, totalAmount := 450, couponCode := some "SAVE10"
    walletAmountUsed := 450, pickupName := none, notes := none
    preparationTime := 20, idempotencyKey := some "key1" }

def oiW : OrderItem :=
  { orderId := 1000, menuItemId := 100, name := "Pizza", variantName := none
    addOns := [], quantity := 2, unitPrice := 250, totalPrice := 500 }

def txW : WalletTx :=
  { userId := 1, type := .debit, amount := 450, description := "Order payment"
    referenceId := some 1000, balanceAfter := 550 }

/-- The database after the example checkout: order committed, cart
gone, wallet debited 450 post-commit, coupon redemption recorded. -/
def dbWafter : DB :=
  { restaurants := [restW], menuItems := [pizzaW], variants := [], addOns := []
    carts := [], cartItems := [], orders := [oW], orderItems := [oiW]
    wallets := [{ userId := 1, balance := 550 }], walletTxs := [txW]
    coupons := [{ save10 with usedCount := 1 }]
    couponUsage := [{ userId := 1, couponId := 700, orderId := some 1000 }]
    nextId := 1001 }

theorem validateCoupon_dbW_eval : validateCoupon dbW "SAVE10" 1 500 = .ok cvW := by
  have hns : ¬("SAVE10" : String) = "" := by decide
  norm_num [hns, validateCoupon, couponUsageCount, round2, round_eq, min_def,
    List.find?, List.filter, dbW, save10, emptyDB, cvW]

set_option maxHeartbeats 2000000 in
theorem createOrder_dbW_eval : createOrder dbW 1 paramsW = .ok (oW, dbWafter) := by
  have hns : ¬("SAVE10" : String) = "" := by decide
  have hk : ¬("key1" : String) = "" := by decide
  norm_num [hns, hk, createOrder, idemLookup, createOrderFresh, checkoutValidate, getCart,
    getOrCreateCartRow, _getCartItemsWithDetails, cartRows, detailCartItems, detailCartItem,
    _calculatePricing, _emptyPricing, couponStep, validateCoupon, couponUsageCount,
    couponDiscount, finalTotalOf, walletReserve, getOrCreateWallet, reservedDB, reservedAmt,
    newOrderRow, orderRowOf, committedDB, commitOrder, orderLinesOf, postCommitEffects,
    debitWallet, bumpWalletBalance, ensureWallet, appendTx, walletBalance, recordCouponUsage,
    getOrderById, createOrderCommit, addOnPriceSum, round2, round_eq, min_def, max_def,
    List.find?, List.filter, List.isEmpty, Except.map, Option.getD,
    dbW, paramsW, restW, pizzaW, cartW, lineW, save10, emptyDB, oW, dbWafter, oiW, txW]

-- ─── C7: coupon discount computation ─────────────────────────────────────────

/-- C7: a validated flat coupon discounts by its fixed value and a
percentage coupon by `subtotal * value / 100`, capped by `maxDiscount`
when one is set; in both cases the discount is clamped to the
subtotal (and stored at 2 decimal places).  In the worked example —
subtotal 500, SAVE10 = 10 percent capped at 50, wallet balance 1000,
`useWallet` — the discount is 50 and the resulting order has
`walletAmountUsed = 450` and `totalAmount = 450`. -/
theorem coupon_discount_computation :
    (∀ (db : DB) (code : String) (u : Nat) (st : ℚ) (r : CouponValidation) (c : Coupon),
        validateCoupon db code u st = .ok r →
        db.coupons.find? (fun x => x.code == code) = some c →
        r.discountAmount = round2 (min (match c.type with
          | .flat => c.value
          | .percentage =>
              match c.maxDiscount with
              | some m => min (st * c.value / 100) m
              | none => st * c.value / 100) st)) ∧
    (∃ r, validateCoupon dbW "SAVE10" 1 500 = .ok r ∧ r.discountAmount = 50) ∧
    (∃ o db', createOrder dbW 1 paramsW = .ok (o, db') ∧
        o.walletAmountUsed = 450 ∧ o.totalAmount = 450) := by
  refine ⟨?_, ⟨cvW, validateCoupon_dbW_eval, rfl⟩, ⟨oW, dbWafter, createOrder_dbW_eval, rfl, rfl⟩⟩
  intro db code u st r c h hfind
  unfold validateCoupon at h
  split at h
  · cases h
  · split at h
    · cases h
    · rename_i hne c' hfind'
      rw [hfind'] at hfind
      cases hfind
      split at h
      · cases h
      · split at h
        · cases h
        · split at h
          · cases h
          · split at h
            · cases h
            · split at h
              · cases h
              · cases h
                rfl

theorem coupon_discount_computation_witness :
    (validateCoupon dbW "SAVE10" 1 500 = .ok cvW) ∧
    (dbW.coupons.find? (fun x => x.code == "SAVE10") = some save10) ∧
    cvW.discountAmount = round2 (min (match save10.type with
      | .flat => save10.value
      | .percentage =>
          match save10.maxDiscount with
          | some m => min ((500 : ℚ) * save10.value / 100) m
          | none => (500 : ℚ) * save10.value / 100) 500) :=
  ⟨validateCoupon_dbW_eval, rfl,
   coupon_discount_computation.1 dbW "SAVE10" 1 500 cvW save10 validateCoupon_dbW_eval rfl⟩

-- ─── Wallet balance bookkeeping lemmas ───────────────────────────────────────

/-- `find?` commutes with a map that preserves the predicate. -/
theorem find?_map_pres {α} (g : α → α) (p : α → Bool) (hpres : ∀ a, p (g a) = p a) :
    ∀ ws : List α, (ws.map g).find? p = (ws.find? p).map g := by
  intro ws
  induction ws with
  | nil => rfl
  | cons a as ih =>
      simp only [List.map_cons, List.find?_cons]
      cases hpa : p a with
      | true => simp [hpres a, hpa]
      | false => simpa [hpres a, hpa] using ih

/-- The wallet-row update predicate/function pair of
`bumpWalletBalance` preserves `userId`. -/
theorem bump_pres (u : Nat) (d : ℚ) (a : Wallet) :
    ((fun w : Wallet => if w.userId == u then { w with balance := w.balance + d } else w) a).userId
      = a.userId := by
  by_cases h : a.userId == u <;> simp [h]

theorem walletBalance_bump_self {db : DB} {u : Nat} (d : ℚ)
    (h : (db.wallets.find? (fun w => w.userId == u)).isSome) :
    walletBalance (bumpWalletBalance db u d) u = walletBalance db u + d := by
  unfold walletBalance bumpWalletBalance
  rw [find?_map_pres _ _ (fun a => by rw [bump_pres u d a])]
  obtain ⟨w, hw⟩ := Option.isSome_iff_exists.mp h
  have hpw : (w.userId == u) = true := List.find?_some (p := fun w : Wallet => w.userId == u) hw
  rw [hw]
  simp only [beq_iff_eq] at hpw
  simp [hpw]

theorem walletBalance_bump_other {db : DB} {u v : Nat} (d : ℚ) (hne : v ≠ u) :
    walletBalance (bumpWalletBalance db u d) v = walletBalance db v := by
  unfold walletBalance bumpWalletBalance
  rw [find?_map_pres _ _ (fun a => by rw [bump_pres u d a])]
  cases hw : db.wallets.find? (fun w => w.userId == v) with
  | none => rfl
  | some w =>
      have hpw : (w.userId == v) = true := List.find?_some (p := fun w : Wallet => w.userId == v) hw
      have hne' : ¬ w.userId = u := by
        simp only [beq_iff_eq] at hpw
        rw [hpw]
        exact hne
      simp [hne']

theorem walletBalance_ensure (db : DB) (u v : Nat) :
    walletBalance (ensureWallet db u) v = walletBalance db v := by
  unfold walletBalance ensureWallet
  cases hf : db.wallets.find? (fun w => w.userId == u) with
  | some w => rfl
  | none =>
      simp only []
      rw [List.find?_append]
      cases hv : db.wallets.find? (fun w => w.userId == v) with
      | some w => rfl
      | none =>
          by_cases huv : v = u
          · subst huv
            rw [hv] at hf
            cases hf
            simp
          · simp only [Option.or]
            rw [List.find?_cons]
            have : (({ userId := u, balance := 0 } : Wallet).userId == v) = false := by
              simp [Ne.symm huv]
            rw [this]
            rfl

theorem exists_wallet_ensure (db : DB) (u : Nat) :
    (((ensureWallet db u).wallets).find? (fun w => w.userId == u)).isSome := by
  unfold ensureWallet
  cases hf : db.wallets.find? (fun w => w.userId == u) with
  | some w => simp [hf]
  | none =>
      simp only []
      rw [List.find?_append, hf]
      simp

theorem walletBalance_appendTx (db : DB) (t : WalletTx) (v : Nat) :
    walletBalance (appendTx db t) v = walletBalance db v := rfl

theorem walletBalance_mapOrderRow (db : DB) (oid : Nat) (f : Order → Order) (v : Nat) :
    walletBalance (mapOrderRow db oid f) v = walletBalance db v := rfl

/-- Balance effect of the cancel-refund block. -/
theorem walletBalance_cancelRefund_self (db : DB) (oid u : Nat) (w : ℚ) :
    walletBalance (cancelRefund db oid u w) u = walletBalance db u + round2 w := by
  unfold cancelRefund
  rw [walletBalance_appendTx, walletBalance_bump_self (round2 w) (exists_wallet_ensure db u),
    walletBalance_ensure]

/-- The transaction row appended by the cancel-refund block. -/
theorem cancelRefund_walletTxs (db : DB) (oid u : Nat) (w : ℚ) :
    (cancelRefund db oid u w).walletTxs = db.walletTxs ++
      [{ userId := u, type := .credit, amount := round2 w
         description := "Order Cancel Refund", referenceId := some oid
         balanceAfter := walletBalance (cancelRefund db oid u w) u }] := by
  unfold cancelRefund
  simp only [appendTx_walletTxs, ensureWallet_walletTxs, bumpWalletBalance_walletTxs,
    walletBalance_appendTx]

-- ─── C4: cancellation with atomic wallet refund ──────────────────────────────

/-- C4: `cancelOrder` succeeds only on orders whose status is
`pending` or `paid` (anything else yields an error, and an error
carries no new state); on success the returned order is the found
order with status `cancelled`, and when `walletAmountUsed = W > 0`
the user's balance has grown by exactly W with one new credit ledger
row referencing the order — all in the same atomic state change. -/
theorem cancelOrder_refund :
    (∀ (db : DB) (oid u : Nat) (o : Order) (db' : DB),
        (∀ x ∈ db.orders, Is2dp x.walletAmountUsed) →
        cancelOrder db oid u = .ok (o, db') →
        ∃ order, db.orders.find? (fun x => x.id == oid && x.userId == u) = some order ∧
          (order.status = .pending ∨ order.status = .paid) ∧
          o = { order with status := .cancelled } ∧
          (0 < order.walletAmountUsed →
             walletBalance db' u = walletBalance db u + order.walletAmountUsed ∧
             ∃ t, db'.walletTxs = db.walletTxs ++ [t] ∧ t.userId = u ∧ t.type = .credit ∧
               t.referenceId = some oid ∧ t.amount = order.walletAmountUsed ∧
               t.balanceAfter = walletBalance db' u) ∧
          (¬ 0 < order.walletAmountUsed →
             db'.wallets = db.wallets ∧ db'.walletTxs = db.walletTxs)) ∧
    (∀ (db : DB) (oid u : Nat) (order : Order),
        db.orders.find? (fun x => x.id == oid && x.userId == u) = some order →
        order.status ≠ .pending → order.status ≠ .paid →
        ∃ e, cancelOrder db oid u = .error e) := by
  constructor
  · intro db oid u o db' h2dp h
    unfold cancelOrder at h
    split at h
    · cases h
    · rename_i order hfind
      have hmem : order ∈ db.orders :=
        List.mem_of_find?_eq_some (p := fun x : Order => x.id == oid && x.userId == u) hfind
      have h2 : round2 order.walletAmountUsed = order.walletAmountUsed := h2dp order hmem
      split at h
      · cases h
      · rename_i hstatus
        refine ⟨order, hfind, ?_, ?_⟩
        · rcases hs : order.status <;> simp [hs] at hstatus ⊢
        split at h
        · rename_i hpos
          cases h
          refine ⟨rfl, ?_, ?_⟩
          · intro _
            constructor
            · rw [walletBalance_cancelRefund_self, walletBalance_mapOrderRow, h2]
            · have htx := cancelRefund_walletTxs
                (mapOrderRow db oid (fun o => { o with status := OrderStatus.cancelled }))
                oid u order.walletAmountUsed
              exact ⟨_, htx, rfl, rfl, rfl, by simpa using h2, rfl⟩
          · intro hneg
            exact absurd hpos hneg
        · rename_i hpos
          cases h
          exact ⟨rfl, fun hp => absurd hp hpos, fun _ => ⟨rfl, rfl⟩⟩
  · intro db oid u order hfind hnp hnpaid
    refine ⟨"Cannot cancel - only pending or paid orders can be cancelled", ?_⟩
    simp only [cancelOrder, hfind]
    rw [if_pos ?_]
    rcases hs : order.status <;> simp_all

/-- A paid order with 50 of wallet money used, refundable. -/
def oC4 : Order :=
  { id := 42, userId := 1, restaurantId := 10, status := .paid
    subtotal := 200, discountAmount := 0, totalAmount := 200, couponCode := none
    walletAmountUsed := 50, pickupName := none, notes := none
    preparationTime := 20, idempotencyKey := none }

def dbC4 : DB :=
  { emptyDB with orders := [oC4]
                 wallets := [{ userId := 1, balance := 100 }]
                 nextId := 90 }

def dbC4after : DB :=
  { emptyDB with orders := [{ oC4 with status := .cancelled }]
                 wallets := [{ userId := 1, balance := 150 }]
                 walletTxs := [{ userId := 1, type := .credit, amount := 50
                                 description := "Order Cancel Refund", referenceId := some 42
                                 balanceAfter := 150 }]
                 nextId := 90 }

theorem cancelOrder_dbC4_eval :
    cancelOrder dbC4 42 1 = .ok ({ oC4 with status := .cancelled }, dbC4after) := by
  norm_num [cancelOrder, dbC4, dbC4after, oC4, emptyDB, List.find?, cancelRefund, mapOrderRow,
    ensureWallet, bumpWalletBalance, appendTx, walletBalance, round2, round_eq]

theorem cancelOrder_refund_witness :
    ((∀ x ∈ dbC4.orders, Is2dp x.walletAmountUsed) ∧ cancelOrder dbC4 42 1 =
        .ok ({ oC4 with status := .cancelled }, dbC4after)) ∧
    ∃ order, dbC4.orders.find? (fun x => x.id == 42 && x.userId == 1) = some order ∧
      (order.status = .pending ∨ order.status = .paid) ∧
      ({ oC4 with status := OrderStatus.cancelled } : Order) = { order with status := .cancelled } ∧
      (0 < order.walletAmountUsed →
         walletBalance dbC4after 1 = walletBalance dbC4 1 + order.walletAmountUsed ∧
         ∃ t, dbC4after.walletTxs = dbC4.walletTxs ++ [t] ∧ t.userId = 1 ∧ t.type = .credit ∧
           t.referenceId = some 42 ∧ t.amount = order.walletAmountUsed ∧
           t.balanceAfter = walletBalance dbC4after 1) ∧
      (¬ 0 < order.walletAmountUsed →
         dbC4after.wallets = dbC4.wallets ∧ dbC4after.walletTxs = dbC4.walletTxs) := by
  have h2dp : ∀ x ∈ dbC4.orders, Is2dp x.walletAmountUsed := by
    intro x hx
    have hxe : x = oC4 := by simpa [dbC4, emptyDB] using hx
    subst hxe
    show round2 oC4.walletAmountUsed = oC4.walletAmountUsed
    norm_num [oC4, round2, round_eq]
  exact ⟨⟨h2dp, cancelOrder_dbC4_eval⟩,
    cancelOrder_refund.1 dbC4 42 1 _ _ h2dp cancelOrder_dbC4_eval⟩

-- ─── C3: wallet ledger replay invariant ──────────────────────────────────────

/-- Signed delta of one ledger row: credits add, debits subtract. -/
def txDelta (t : WalletTx) : ℚ :=
  match t.type with
  | .credit => t.amount
  | .debit => -t.amount

/-- Replay of a user's ledger from zero, in creation order. -/
def ledgerSum (db : DB) (u : Nat) : ℚ :=
  ((db.walletTxs.filter (fun t => t.userId == u)).map txDelta).sum

/-- The audit invariant: every user's stored balance equals the
replay of their ledger. -/
def LedgerInv (db : DB) : Prop := ∀ u, walletBalance db u = ledgerSum db u

/-- The wallet-balance mutations of the system: `addMoney` credit,
`debitWallet`, and the `cancelOrder` refund. -/
inductive WalletOp
  | add (userId : Nat) (amount : ℚ)
  | debit (userId : Nat) (amount : ℚ) (orderId : Nat)
  | cancel (orderId userId : Nat)

/-- Run one operation, keeping the old state when it throws. -/
def applyWalletOp (db : DB) : WalletOp → DB
  | .add u a =>
      match addMoney db u a with
      | .ok (_, db') => db'
      | .error _ => db
  | .debit u a oid =>
      match debitWallet db u a oid with
      | .ok (_, db') => db'
      | .error _ => db
  | .cancel oid u =>
      match cancelOrder db oid u with
      | .ok (_, db') => db'
      | .error _ => db

theorem ledgerSum_appendTx (db : DB) (t : WalletTx) (v : Nat) :
    ledgerSum (appendTx db t) v =
      ledgerSum db v + (if t.userId == v then txDelta t else 0) := by
  unfold ledgerSum
  rw [appendTx_walletTxs, List.filter_append]
  cases ht : t.userId == v with
  | true => simp [List.filter, ht]
  | false => simp [List.filter, ht]

theorem ledgerSum_bump (db : DB) (u : Nat) (d : ℚ) (v : Nat) :
    ledgerSum (bumpWalletBalance db u d) v = ledgerSum db v := rfl

theorem ledgerSum_ensure (db : DB) (u v : Nat) :
    ledgerSum (ensureWallet db u) v = ledgerSum db v := by
  unfold ledgerSum
  rw [ensureWallet_walletTxs]

theorem ledgerSum_mapOrderRow (db : DB) (oid : Nat) (f : Order → Order) (v : Nat) :
    ledgerSum (mapOrderRow db oid f) v = ledgerSum db v := rfl

theorem addMoney_preserves {db : DB} {u : Nat} {a : ℚ} {r : ℚ} {db' : DB}
    (hinv : LedgerInv db) (hok : addMoney db u a = .ok (r, db')) : LedgerInv db' := by
  unfold addMoney at hok
  split at hok
  · cases hok
  · split at hok
    · cases hok
    · cases hok
      intro v
      rw [walletBalance_appendTx, ledgerSum_appendTx]
      by_cases hv : v = u
      · subst hv
        rw [walletBalance_bump_self (round2 a) (exists_wallet_ensure db v),
          walletBalance_ensure, ledgerSum_bump, ledgerSum_ensure, hinv v]
        simp [txDelta]
      · rw [walletBalance_bump_other (round2 a) hv, walletBalance_ensure,
          ledgerSum_bump, ledgerSum_ensure, hinv v]
        have huv : (u == v) = false := by
          rw [beq_eq_false_iff_ne]
          exact fun h => hv h.symm
        simp [huv]

theorem debitWallet_preserves {db : DB} {u : Nat} {a : ℚ} {oid : Nat} {r : ℚ} {db' : DB}
    (hinv : LedgerInv db) (hok : debitWallet db u a oid = .ok (r, db')) : LedgerInv db' := by
  unfold debitWallet at hok
  split at hok
  · cases hok
  · split at hok
    · cases hok
    · rename_i wallet hfind
      split at hok
      · cases hok
      · cases hok
        intro v
        rw [walletBalance_appendTx, ledgerSum_appendTx]
        by_cases hv : v = u
        · subst hv
          rw [walletBalance_bump_self (-round2 a) (by simp [hfind]), ledgerSum_bump, hinv v]
          simp [txDelta]
        · rw [walletBalance_bump_other (-round2 a) hv, ledgerSum_bump, hinv v]
          have huv : (u == v) = false := by
            rw [beq_eq_false_iff_ne]
            exact fun h => hv h.symm
          simp [huv]

theorem cancelOrder_preserves {db : DB} {oid u : Nat} {o : Order} {db' : DB}
    (hinv : LedgerInv db) (hok : cancelOrder db oid u = .ok (o, db')) : LedgerInv db' := by
  unfold cancelOrder at hok
  split at hok
  · cases hok
  · rename_i order hfind
    split at hok
    · cases hok
    · split at hok
      · cases hok
        intro v
        unfold cancelRefund
        rw [walletBalance_appendTx, ledgerSum_appendTx]
        by_cases hv : v = u
        · subst hv
          rw [walletBalance_bump_self (round2 order.walletAmountUsed)
              (exists_wallet_ensure _ v),
            walletBalance_ensure, ledgerSum_bump, ledgerSum_ensure,
            walletBalance_mapOrderRow, ledgerSum_mapOrderRow, hinv v]
          simp [txDelta]
        · rw [walletBalance_bump_other (round2 order.walletAmountUsed) hv,
            walletBalance_ensure, ledgerSum_bump, ledgerSum_ensure,
            walletBalance_mapOrderRow, ledgerSum_mapOrderRow, hinv v]
          have huv : (u == v) = false := by
            rw [beq_eq_false_iff_ne]
            exact fun h => hv h.symm
          simp [huv]
      · cases hok
        intro v
        rw [walletBalance_mapOrderRow, ledgerSum_mapOrderRow]
        exact hinv v

/-- C3: each wallet mutation appends exactly one ledger row whose
`balanceAfter` is the post-mutation balance (`cancelOrder` appends one
exactly when it refunds), and the replay invariant — balance equals
the ledger replayed from zero in creation order — holds in the empty
state and is preserved by every sequence of mutations. -/
theorem wallet_ledger_replay :
    (∀ (db : DB) (u : Nat) (a r : ℚ) (db' : DB),
        addMoney db u a = .ok (r, db') →
        ∃ t, db'.walletTxs = db.walletTxs ++ [t] ∧ t.userId = u ∧ t.type = .credit ∧
          t.balanceAfter = walletBalance db' u) ∧
    (∀ (db : DB) (u : Nat) (a : ℚ) (oid : Nat) (r : ℚ) (db' : DB),
        debitWallet db u a oid = .ok (r, db') →
        ∃ t, db'.walletTxs = db.walletTxs ++ [t] ∧ t.userId = u ∧ t.type = .debit ∧
          t.balanceAfter = walletBalance db' u) ∧
    (∀ (db : DB) (oid u : Nat) (o : Order) (db' : DB),
        cancelOrder db oid u = .ok (o, db') →
        (db'.walletTxs = db.walletTxs ∧ db'.wallets = db.wallets) ∨
        (∃ t, db'.walletTxs = db.walletTxs ++ [t] ∧ t.userId = u ∧ t.type = .credit ∧
          t.balanceAfter = walletBalance db' u)) ∧
    LedgerInv emptyDB ∧
    (∀ (ops : List WalletOp) (db : DB),
        LedgerInv db → LedgerInv (ops.foldl applyWalletOp db)) := by
  refine ⟨?_, ?_, ?_, ?_, ?_⟩
  · intro db u a r db' hok
    unfold addMoney at hok
    split at hok
    · cases hok
    · split at hok
      · cases hok
      · cases hok
        refine ⟨{ userId := u, type := .credit, amount := round2 a
                  description := "Added to wallet", referenceId := none
                  balanceAfter :=
                    walletBalance (bumpWalletBalance (ensureWallet db u) u (round2 a)) u },
                by simp, rfl, rfl, rfl⟩
  · intro db u a oid r db' hok
    unfold debitWallet at hok
    split at hok
    · cases hok
    · split at hok
      · cases hok
      · split at hok
        · cases hok
        · cases hok
          refine ⟨{ userId := u, type := .debit, amount := round2 a
                    description := "Order payment", referenceId := some oid
                    balanceAfter :=
                      walletBalance (bumpWalletBalance db u (-round2 a)) u },
                  rfl, rfl, rfl, rfl⟩
  · intro db oid u o db' hok
    unfold cancelOrder at hok
    split at hok
    · cases hok
    · rename_i order hfind
      split at hok
      · cases hok
      · split at hok
        · cases hok
          right
          have htx := cancelRefund_walletTxs
            (mapOrderRow db oid (fun x => { x with status := OrderStatus.cancelled }))
            oid u order.walletAmountUsed
          exact ⟨_, htx, rfl, rfl, rfl⟩
        · cases hok
          exact Or.inl ⟨rfl, rfl⟩
  · intro v
    rfl
  · intro ops
    induction ops with
    | nil => exact fun db h => h
    | cons op rest ih =>
        intro db h
        rw [List.foldl_cons]
        refine ih (applyWalletOp db op) ?_
        cases op with
        | add u a =>
            simp only [applyWalletOp]
            cases hop : addMoney db u a with
            | ok rdb => exact addMoney_preserves h hop
            | error e => exact h
        | debit u a oid =>
            simp only [applyWalletOp]
            cases hop : debitWallet db u a oid with
            | ok rdb => exact debitWallet_preserves h hop
            | error e => exact h
        | cancel oid u =>
            simp only [applyWalletOp]
            cases hop : cancelOrder db oid u with
            | ok rdb => exact cancelOrder_preserves h hop
            | error e => exact h

theorem wallet_ledger_replay_witness :
    LedgerInv emptyDB ∧
    LedgerInv ([WalletOp.add 1 100, WalletOp.debit 1 30 7].foldl applyWalletOp emptyDB) :=
  ⟨wallet_ledger_replay.2.2.2.1,
   wallet_ledger_replay.2.2.2.2 [WalletOp.add 1 100, WalletOp.debit 1 30 7] emptyDB
     wallet_ledger_replay.2.2.2.1⟩

-- ─── Structure lemmas for the checkout pipeline ──────────────────────────────

theorem getOrCreateWallet_orders (db : DB) (u : Nat) :
    (getOrCreateWallet db u).2.orders = db.orders := by
  unfold getOrCreateWallet; split <;> rfl

theorem getOrCreateWallet_nextId (db : DB) (u : Nat) :
    (getOrCreateWallet db u).2.nextId = db.nextId := by
  unfold getOrCreateWallet; split <;> rfl

theorem getOrCreateWallet_balance (db : DB) (u : Nat) :
    (getOrCreateWallet db u).1.balance = walletBalance db u := by
  unfold getOrCreateWallet walletBalance
  split <;> simp_all

theorem reservedDB_orders (db : DB) (u : Nat) (p : CreateOrderParams) (pr : Pricing)
    (cd : Option CouponValidation) : (reservedDB db u p pr cd).orders = db.orders := by
  unfold reservedDB walletReserve
  split
  · exact getOrCreateWallet_orders db u
  · rfl

theorem reservedDB_nextId (db : DB) (u : Nat) (p : CreateOrderParams) (pr : Pricing)
    (cd : Option CouponValidation) : (reservedDB db u p pr cd).nextId = db.nextId := by
  unfold reservedDB walletReserve
  split
  · exact getOrCreateWallet_nextId db u
  · rfl

theorem reservedAmt_eq (db : DB) (u : Nat) (p : CreateOrderParams) (pr : Pricing)
    (cd : Option CouponValidation) :
    reservedAmt db u p pr cd =
      (if p.useWallet then
        max 0 (min (walletBalance db u) (finalTotalOf pr cd)) else 0) := by
  unfold reservedAmt walletReserve
  split
  · show (getOrCreateWallet db u).1.balance ⊓ finalTotalOf pr cd ⊔ 0 = _
    rw [getOrCreateWallet_balance, sup_comm]
  · rfl

theorem debitWallet_ok_orders {db : DB} {u : Nat} {a : ℚ} {oid : Nat} {r : ℚ} {db' : DB}
    (h : debitWallet db u a oid = .ok (r, db')) : db'.orders = db.orders := by
  unfold debitWallet at h
  split at h
  · cases h
  · split at h
    · cases h
    · split at h
      · cases h
      · cases h; rfl

theorem postCommitEffects_orders (db1 : DB) (u oid : Nat) (w : ℚ)
    (cd : Option CouponValidation) :
    (postCommitEffects db1 u oid w cd).orders = db1.orders := by
  unfold postCommitEffects
  have hdb2 : (if 0 < w then
      match debitWallet db1 u w oid with
      | .ok (_, dbd) => dbd
      | .error _ => db1
    else db1).orders = db1.orders := by
    split
    · cases hd : debitWallet db1 u w oid with
      | ok rdb => exact debitWallet_ok_orders hd
      | error e => rfl
    · rfl
  cases cd with
  | some c => simpa [recordCouponUsage] using hdb2
  | none => exact hdb2

theorem newOrderRow_id (db : DB) (u : Nat) (p : CreateOrderParams) (cart : Cart)
    (pr : Pricing) (rst : Restaurant) (cd : Option CouponValidation) :
    (newOrderRow db u p cart pr rst cd).id = db.nextId := by
  unfold newOrderRow orderRowOf
  exact reservedDB_nextId db u p pr cd

theorem committedDB_orders (db : DB) (u : Nat) (p : CreateOrderParams) (cart : Cart)
    (items : List DetailedCartItem) (pr : Pricing) (rst : Restaurant)
    (cd : Option CouponValidation) :
    (committedDB db u p cart items pr rst cd).orders =
      db.orders ++ [newOrderRow db u p cart pr rst cd] := by
  unfold committedDB
  rw [postCommitEffects_orders]
  show ((reservedDB db u p pr cd).orders ++ _) = _
  rw [reservedDB_orders]

/-- With fresh order ids, the post-commit re-read finds exactly the
inserted row. -/
theorem getOrderById_committed {db : DB} {u : Nat} {p : CreateOrderParams} {cart : Cart}
    {items : List DetailedCartItem} {pr : Pricing} {rst : Restaurant}
    {cd : Option CouponValidation}
    (hids : ∀ x ∈ db.orders, x.id < db.nextId) :
    getOrderById (committedDB db u p cart items pr rst cd)
      (newOrderRow db u p cart pr rst cd).id (some u) =
      .ok (newOrderRow db u p cart pr rst cd) := by
  unfold getOrderById
  have hfind : (committedDB db u p cart items pr rst cd).orders.find?
      (fun o => o.id == (newOrderRow db u p cart pr rst cd).id &&
        (match some u with | some v => o.userId == v | none => true)) =
      some (newOrderRow db u p cart pr rst cd) := by
    rw [committedDB_orders, List.find?_append]
    have hnone : db.orders.find?
        (fun o => o.id == (newOrderRow db u p cart pr rst cd).id &&
          (match some u with | some v => o.userId == v | none => true)) = none := by
      rw [List.find?_eq_none]
      intro x hx
      have hlt := hids x hx
      simp only [newOrderRow_id]
      simp [Nat.ne_of_lt hlt]
    rw [hnone]
    simp [newOrderRow, orderRowOf]
  rw [hfind]

theorem createOrderCommit_ok {db : DB} {u : Nat} {p : CreateOrderParams} {cart : Cart}
    {items : List DetailedCartItem} {pr : Pricing} {rst : Restaurant}
    {cd : Option CouponValidation}
    (hids : ∀ x ∈ db.orders, x.id < db.nextId) :
    createOrderCommit db u p cart items pr rst cd =
      .ok (newOrderRow db u p cart pr rst cd,
           committedDB db u p cart items pr rst cd) := by
  unfold createOrderCommit
  rw [getOrderById_committed hids]

/-- Dissection of a successful fresh `createOrder`. -/
theorem createOrder_ok_shape {db : DB} {u : Nat} {p : CreateOrderParams} {o : Order} {db' : DB}
    (hids : ∀ x ∈ db.orders, x.id < db.nextId)
    (hlookup : idemLookup db u p.idempotencyKey = none)
    (h : createOrder db u p = .ok (o, db')) :
    ∃ cart items pricing restaurant cd,
      checkoutValidate db u = .ok (cart, items, pricing, restaurant) ∧
      couponStep db u p.couponCode pricing.subtotal = .ok cd ∧
      o = newOrderRow db u p cart pricing restaurant cd ∧
      db' = committedDB db u p cart items pricing restaurant cd := by
  have h2 : createOrderFresh db u p = .ok (o, db') := by
    unfold createOrder at h
    rw [hlookup] at h
    exact h
  clear h
  rename' h2 => h
  unfold createOrderFresh at h
  split at h
  · cases h
  · rename_i cart items pricing restaurant hvalid
    split at h
    · cases h
    · rename_i cd hcoupon
      rw [createOrderCommit_ok hids] at h
      cases h
      exact ⟨cart, items, pricing, restaurant, cd, hvalid, hcoupon, rfl, rfl⟩

theorem getCart_ok_shape {db : DB} {u : Nat} {cart : Cart} {items : List DetailedCartItem}
    {pricing : Pricing} (h : getCart db u = .ok (some cart, items, pricing)) :
    getOrCreateCartRow db u = some cart ∧
    _getCartItemsWithDetails db cart.id = .ok items ∧
    pricing = _calculatePricing items := by
  unfold getCart at h
  split at h
  · cases h
  · rename_i cart' hrow
    split at h
    · cases h
    · rename_i items' hdet
      cases h
      exact ⟨hrow, hdet, rfl⟩

theorem checkoutValidate_ok_shape {db : DB} {u : Nat} {cart : Cart}
    {items : List DetailedCartItem} {pricing : Pricing} {restaurant : Restaurant}
    (h : checkoutValidate db u = .ok (cart, items, pricing, restaurant)) :
    getCart db u = .ok (some cart, items, pricing) := by
  unfold checkoutValidate at h
  split at h
  · cases h
  · cases h
  · rename_i cart' items' pricing' hget
    split at h
    · cases h
    · split at h
      · cases h
      · split at h
        · cases h
        · split at h
          · cases h
          · split at h
            · cases h
            · cases h
              exact hget

-- ─── Non-negativity of engine pricing and coupon bounds ──────────────────────

theorem foldl_add_nonneg {α} (f : α → ℚ) :
    ∀ (l : List α) (s : ℚ), 0 ≤ s → (∀ a ∈ l, 0 ≤ f a) →
      0 ≤ l.foldl (fun acc a => acc + f a) s := by
  intro l
  induction l with
  | nil => exact fun s hs _ => hs
  | cons a as ih =>
      intro s hs hl
      rw [List.foldl_cons]
      exact ih (s + f a) (by linarith [hl a (List.mem_cons_self a as)])
        (fun x hx => hl x (List.mem_cons_of_mem a hx))

theorem addOnPriceSum_nonneg {snaps : List AddOnSnap}
    (h : ∀ a ∈ snaps, 0 ≤ a.price) : 0 ≤ addOnPriceSum snaps := by
  unfold addOnPriceSum
  exact foldl_add_nonneg (f := fun a : AddOnSnap => a.price) snaps 0 le_rfl h

theorem detailCartItem_nonneg {db : DB} {i : CartItem} {d : DetailedCartItem}
    (hm : ∀ m ∈ db.menuItems, 0 ≤ m.basePrice)
    (hv : ∀ v ∈ db.variants, 0 ≤ v.price)
    (ha : ∀ a ∈ i.addOns, 0 ≤ a.price)
    (h : detailCartItem db i = .ok d) : 0 ≤ d.totalPrice := by
  unfold detailCartItem at h
  split at h
  · cases h
  · rename_i menuItem hfind
    cases h
    have hmem : menuItem ∈ db.menuItems :=
      List.mem_of_find?_eq_some (p := fun m : MenuItem => m.id == i.menuItemId) hfind
    show 0 ≤ _ * ((i.quantity : ℕ) : ℚ)
    refine mul_nonneg ?_ (by positivity)
    refine add_nonneg ?_ (addOnPriceSum_nonneg ha)
    cases hvid : i.variantId with
    | none => simpa using hm menuItem hmem
    | some vid =>
        cases hfv : db.variants.find? (fun v => v.id == vid) with
        | none => simpa [hfv] using hm menuItem hmem
        | some v =>
            simpa [hfv] using hv v
              (List.mem_of_find?_eq_some (p := fun x : MenuItemVariant => x.id == vid) hfv)

theorem detailCartItems_nonneg {db : DB}
    (hm : ∀ m ∈ db.menuItems, 0 ≤ m.basePrice)
    (hv : ∀ v ∈ db.variants, 0 ≤ v.price) :
    ∀ {l : List CartItem}, (∀ i ∈ l, ∀ a ∈ i.addOns, 0 ≤ a.price) →
      ∀ {ds}, detailCartItems db l = .ok ds → ∀ d ∈ ds, 0 ≤ d.totalPrice := by
  intro l
  induction l with
  | nil =>
      intro _ ds h d hd
      cases h
      cases hd
  | cons a as ih =>
      intro ha ds h d hd
      unfold detailCartItems at h
      split at h
      · cases h
      · rename_i d1 hd1
        split at h
        · cases h
        · rename_i ds1 hds1
          cases h
          rcases List.mem_cons.mp hd with rfl | hd'
          · exact detailCartItem_nonneg hm hv (ha a (List.mem_cons_self a as)) hd1
          · exact ih (fun i hi => ha i (List.mem_cons_of_mem a hi)) hds1 d hd'

theorem calculatePricing_subtotal_nonneg {items : List DetailedCartItem}
    (h : ∀ d ∈ items, 0 ≤ d.totalPrice) :
    0 ≤ (_calculatePricing items).subtotal := by
  unfold _calculatePricing
  exact round2_nonneg (foldl_add_nonneg (fun d => d.totalPrice) items 0 le_rfl h)

theorem calculatePricing_subtotal_2dp (items : List DetailedCartItem) :
    Is2dp (_calculatePricing items).subtotal := by
  unfold _calculatePricing
  exact is2dp_round2 _

theorem calculatePricing_discount_zero (items : List DetailedCartItem) :
    (_calculatePricing items).discountAmount = 0 := rfl

/-- A validated discount never exceeds the (2dp-rounded) subtotal and
is itself a 2dp amount. -/
theorem validateCoupon_discount_le {db : DB} {code : String} {u : Nat} {st : ℚ}
    {r : CouponValidation} (h : validateCoupon db code u st = .ok r) :
    r.discountAmount ≤ round2 st ∧ Is2dp r.discountAmount := by
  unfold validateCoupon at h
  split at h
  · cases h
  · split at h
    · cases h
    · split at h
      · cases h
      · split at h
        · cases h
        · split at h
          · cases h
          · split at h
            · cases h
            · split at h
              · cases h
              · cases h
                exact ⟨round2_mono (min_le_right _ _), is2dp_round2 _⟩

theorem couponStep_discount_le {db : DB} {u : Nat} {cc : Option String} {st : ℚ}
    {cd : Option CouponValidation} (hst : (0 : ℚ) ≤ round2 st)
    (h : couponStep db u cc st = .ok cd) :
    couponDiscount cd ≤ round2 st ∧ Is2dp (couponDiscount cd) := by
  unfold couponStep at h
  split at h
  · rename_i c
    split at h
    · cases h
      exact ⟨hst, Is2dp.zero⟩
    · cases hv : validateCoupon db c u st with
      | error e => rw [hv] at h; cases h
      | ok r =>
          rw [hv] at h
          cases h
          exact validateCoupon_discount_le hv
  · cases h
    exact ⟨hst, Is2dp.zero⟩

-- ─── C1: the monetary invariant of a created order ───────────────────────────

theorem is2dp_walletBalance {db : DB} (u : Nat)
    (hw : ∀ w ∈ db.wallets, Is2dp w.balance) : Is2dp (walletBalance db u) := by
  unfold walletBalance
  cases hf : db.wallets.find? (fun w => w.userId == u) with
  | none => exact Is2dp.zero
  | some w =>
      exact hw w (List.mem_of_find?_eq_some (p := fun w : Wallet => w.userId == u) hf)

/-- C1: every order created by a fresh (non-replayed) successful
`createOrder` call satisfies
`totalAmount = subtotal − discountAmount`, both non-negative, with
`walletAmountUsed = max(0, min(wallet balance, totalAmount))` when
wallet payment was requested and `0` otherwise — in particular
`walletAmountUsed ≤ totalAmount`.  Catalog prices are non-negative
and wallet balances are 2-decimal values, as the NUMERIC schema
columns guarantee. -/
theorem createOrder_money_invariant :
    ∀ (db : DB) (u : Nat) (p : CreateOrderParams) (o : Order) (db' : DB),
      idemLookup db u p.idempotencyKey = none →
      (∀ x ∈ db.orders, x.id < db.nextId) →
      (∀ m ∈ db.menuItems, 0 ≤ m.basePrice) →
      (∀ v ∈ db.variants, 0 ≤ v.price) →
      (∀ i ∈ db.cartItems, ∀ a ∈ i.addOns, 0 ≤ a.price) →
      (∀ w ∈ db.wallets, Is2dp w.balance) →
      createOrder db u p = .ok (o, db') →
      o.totalAmount = o.subtotal - o.discountAmount ∧
      0 ≤ o.subtotal ∧ 0 ≤ o.totalAmount ∧
      o.walletAmountUsed ≤ o.totalAmount ∧
      o.walletAmountUsed =
        (if p.useWallet then max 0 (min (walletBalance db u) o.totalAmount) else 0) := by
  intro db u p o db' hlookup hids hm hv ha hw h
  obtain ⟨cart, items, pricing, restaurant, cd, hvalid, hcoupon, ho, hdb'⟩ :=
    createOrder_ok_shape hids hlookup h
  obtain ⟨hrow, hdet, hpricing⟩ := getCart_ok_shape (checkoutValidate_ok_shape hvalid)
  have hsub0 : 0 ≤ pricing.subtotal := by
    rw [hpricing]
    refine calculatePricing_subtotal_nonneg ?_
    refine detailCartItems_nonneg hm hv ?_ hdet
    intro i hi
    exact ha i (List.mem_of_mem_filter hi)
  have hsub2 : Is2dp pricing.subtotal := by
    rw [hpricing]; exact calculatePricing_subtotal_2dp items
  have hdz : pricing.discountAmount = 0 := by rw [hpricing]; rfl
  have hstep := couponStep_discount_le (by rw [hsub2.round2_eq]; exact hsub0) hcoupon
  have hcdle : couponDiscount cd ≤ pricing.subtotal := by
    have h1 := hstep.1
    rwa [hsub2.round2_eq] at h1
  have hcd2 : Is2dp (couponDiscount cd) := hstep.2
  have hT : finalTotalOf pricing cd = pricing.subtotal - couponDiscount cd := by
    unfold finalTotalOf
    rw [hdz, zero_add]
    exact max_eq_right (by linarith)
  have hT2 : Is2dp (finalTotalOf pricing cd) := by rw [hT]; exact hsub2.sub hcd2
  have hT0 : 0 ≤ finalTotalOf pricing cd := by rw [hT]; linarith
  have hosub : o.subtotal = round2 pricing.subtotal := by rw [ho]; rfl
  have hodis : o.discountAmount = round2 (pricing.discountAmount + couponDiscount cd) := by
    rw [ho]; rfl
  have hotot : o.totalAmount = round2 (finalTotalOf pricing cd) := by rw [ho]; rfl
  have howal : o.walletAmountUsed = round2 (reservedAmt db u p pricing cd) := by rw [ho]; rfl
  have htotT : o.totalAmount = finalTotalOf pricing cd := by rw [hotot, hT2.round2_eq]
  have hbal2 : Is2dp (walletBalance db u) := is2dp_walletBalance u hw
  refine ⟨?_, ?_, ?_, ?_, ?_⟩
  · rw [htotT, hT, hosub, hsub2.round2_eq, hodis, hdz, zero_add, hcd2.round2_eq]
  · rw [hosub, hsub2.round2_eq]; exact hsub0
  · rw [htotT]; exact hT0
  · rw [howal, htotT, reservedAmt_eq]
    by_cases hu : p.useWallet
    · rw [if_pos hu]
      calc round2 (max 0 (min (walletBalance db u) (finalTotalOf pricing cd)))
          ≤ round2 (finalTotalOf pricing cd) :=
            round2_mono (max_le hT0 (min_le_right _ _))
        _ = finalTotalOf pricing cd := hT2.round2_eq
    · rw [if_neg hu, round2_zero]; exact hT0
  · rw [howal, reservedAmt_eq]
    by_cases hu : p.useWallet
    · rw [if_pos hu, if_pos hu, htotT]
      exact (Is2dp.zero.max (hbal2.min hT2)).round2_eq
    · rw [if_neg hu, if_neg hu, round2_zero]

theorem createOrder_money_invariant_witness :
    (idemLookup dbW 1 paramsW.idempotencyKey = none ∧
      createOrder dbW 1 paramsW = .ok (oW, dbWafter)) ∧
    (oW.totalAmount = oW.subtotal - oW.discountAmount ∧
      0 ≤ oW.subtotal ∧ 0 ≤ oW.totalAmount ∧
      oW.walletAmountUsed ≤ oW.totalAmount ∧
      oW.walletAmountUsed =
        (if paramsW.useWallet then max 0 (min (walletBalance dbW 1) oW.totalAmount) else 0)) := by
  refine ⟨⟨rfl, createOrder_dbW_eval⟩, ?_⟩
  refine createOrder_money_invariant dbW 1 paramsW oW dbWafter rfl ?_ ?_ ?_ ?_ ?_
    createOrder_dbW_eval
  · intro x hx
    simp [dbW, emptyDB] at hx
  · intro m hmm
    have : m = pizzaW := by simpa [dbW, emptyDB] using hmm
    subst this
    norm_num [pizzaW]
  · intro v hvv
    simp [dbW, emptyDB] at hvv
  · intro i hii
    have : i = lineW := by simpa [dbW, emptyDB] using hii
    subst this
    intro a haa
    simp [lineW] at haa
  · intro w hww
    have : w = { userId := 1, balance := 1000 } := by simpa [dbW, emptyDB] using hww
    subst this
    show Is2dp (1000 : ℚ)
    rw [is2dp_iff]
    exact ⟨100000, by norm_num⟩

-- ─── C2: idempotent retry by (userId, idempotencyKey) ────────────────────────

/-- A checkout request carrying the empty string as its idempotency
key — non-null, but falsy to the JavaScript `if (idempotencyKey)`
guard, so the lookup is skipped. -/
def paramsE : CreateOrderParams :=
  { idempotencyKey := some "", useWallet := false, couponCode := none }

/-- The order created by the empty-key checkout. -/
def oE : Order :=
  { id := 1000, userId := 1, restaurantId := 10, status := .pending
    subtotal := 500, discountAmount := 0, totalAmount := 500, couponCode := none
    walletAmountUsed := 0, pickupName := none, notes := none
    preparationTime := 20, idempotencyKey := some "" }

def dbEafter : DB :=
  { restaurants := [restW], menuItems := [pizzaW], variants := [], addOns := []
    carts := [], cartItems := [], orders := [oE], orderItems := [oiW]
    wallets := [{ userId := 1, balance := 1000 }], walletTxs := []
    coupons := [save10], couponUsage := [], nextId := 1001 }

set_option maxHeartbeats 1000000 in
theorem createOrder_dbE_eval : createOrder dbW 1 paramsE = .ok (oE, dbEafter) := by
  norm_num [createOrder, idemLookup, createOrderFresh, checkoutValidate, getCart,
    getOrCreateCartRow, _getCartItemsWithDetails, cartRows, detailCartItems, detailCartItem,
    _calculatePricing, _emptyPricing, couponStep, couponDiscount, finalTotalOf,
    walletReserve, reservedDB, reservedAmt, newOrderRow, orderRowOf, committedDB,
    commitOrder, orderLinesOf, postCommitEffects, getOrderById, createOrderCommit,
    addOnPriceSum, round2, round_eq, min_def, max_def,
    List.find?, List.filter, List.isEmpty, Except.map, Option.getD,
    dbW, paramsE, restW, pizzaW, cartW, lineW, save10, emptyDB, oE, dbEafter, oiW]

/-- C2 counterexample: the idempotency key `""` is non-null, yet it
defeats the replay: the first call succeeds, and the second call with
the identical (userId, idempotencyKey) fails with "cart empty"
instead of returning the same order — because `if (idempotencyKey)`
is a JS truthiness test that skips the lookup for the empty string,
and the first call consumed the cart. -/
theorem createOrder_idempotent_cex :
    paramsE.idempotencyKey = some "" ∧
    createOrder dbW 1 paramsE = .ok (oE, dbEafter) ∧
    createOrder dbEafter 1 paramsE = .error "Your cart is empty" := by
  refine ⟨rfl, createOrder_dbE_eval, ?_⟩
  rfl

/-- C2 amended: for every non-null, non-empty idempotency key — the
shape every API-reachable key has, since the route maps the empty
header to null — a second `createOrder` call with the same
(userId, idempotencyKey) returns the same order and the same state as
the first (creating nothing), and exactly one order row carries that
key.  The fresh-id and uniqueness hypotheses mirror the primary-key
and partial-unique-index constraints of the orders table. -/
theorem createOrder_idempotent :
    ∀ (db : DB) (u : Nat) (p : CreateOrderParams) (k : String) (o1 : Order) (db1 : DB),
      p.idempotencyKey = some k → k ≠ "" →
      (∀ x ∈ db.orders, x.id < db.nextId) →
      (db.orders.map (fun x => x.id)).Nodup →
      (∀ x ∈ db.orders, ∀ y ∈ db.orders, x.userId = y.userId →
          x.idempotencyKey ≠ none → x.idempotencyKey = y.idempotencyKey → x = y) →
      createOrder db u p = .ok (o1, db1) →
      createOrder db1 u p = .ok (o1, db1) ∧ (ordersWithKey db1 u k).length = 1 := by
  intro db u p k o1 db1 hk hne hids hnodup huniq h
  cases hlk : idemLookup db u p.idempotencyKey with
  | some ex =>
      have hfind : db.orders.find?
          (fun o => o.userId == u && o.idempotencyKey == some k) = some ex := by
        have h0 := hlk
        rw [hk] at h0
        unfold idemLookup at h0
        have h1 : (if k = "" then none
            else db.orders.find? (fun o => o.userId == u && o.idempotencyKey == some k))
            = some ex := h0
        rw [if_neg hne] at h1
        exact h1
      have h' : (getOrderById db ex.id (some u)).map (fun o => (o, db)) = .ok (o1, db1) := by
        unfold createOrder at h
        rw [hlk] at h
        exact h
      cases hg : getOrderById db ex.id (some u) with
      | error e => rw [hg] at h'; cases h'
      | ok o =>
          rw [hg] at h'
          cases h'
          constructor
          · show (match idemLookup db u p.idempotencyKey with
                  | some existing => Except.map (fun o => (o, db)) (getOrderById db existing.id (some u))
                  | none => createOrderFresh db u p) = Except.ok (o1, db)
            rw [hlk]
            show Except.map (fun o => (o, db)) (getOrderById db ex.id (some u)) = _
            rw [hg]
            rfl
          · have hex : ex ∈ db.orders := List.mem_of_find?_eq_some
              (p := fun o : Order => o.userId == u && o.idempotencyKey == some k) hfind
            have hpred : (ex.userId == u && ex.idempotencyKey == some k) = true :=
              List.find?_some
                (p := fun o : Order => o.userId == u && o.idempotencyKey == some k) hfind
            refine length_filter_eq_one (fun o => o.id) hnodup hex hpred ?_
            intro y hy hyq
            simp only [Bool.and_eq_true, beq_iff_eq] at hpred hyq
            refine (huniq ex hex y hy ?_ ?_ ?_).symm
            · rw [hpred.1, hyq.1]
            · rw [hpred.2]; exact Option.some_ne_none k
            · rw [hpred.2, hyq.2]
  | none =>
      obtain ⟨cart, items, pricing, restaurant, cd, hvalid, hcoupon, ho, hdb1⟩ :=
        createOrder_ok_shape hids hlk h
      have hfnone : db.orders.find?
          (fun o => o.userId == u && o.idempotencyKey == some k) = none := by
        have h0 := hlk
        rw [hk] at h0
        unfold idemLookup at h0
        have h1 : (if k = "" then none
            else db.orders.find? (fun o => o.userId == u && o.idempotencyKey == some k))
            = none := h0
        rw [if_neg hne] at h1
        exact h1
      have ho1id : o1.id = db.nextId := by rw [ho]; exact newOrderRow_id db u p cart pricing restaurant cd
      have ho1u : o1.userId = u := by rw [ho]; rfl
      have ho1k : o1.idempotencyKey = some k := by
        rw [ho]
        show p.idempotencyKey = some k
        exact hk
      have horders : db1.orders = db.orders ++ [o1] := by
        rw [hdb1, committedDB_orders, ho]
      have hlk2 : idemLookup db1 u p.idempotencyKey = some o1 := by
        rw [hk]
        show (if k = "" then none
            else db1.orders.find? (fun o => o.userId == u && o.idempotencyKey == some k))
            = some o1
        rw [if_neg hne, horders, List.find?_append, hfnone]
        simp [ho1u, ho1k]
      have hget2 : getOrderById db1 o1.id (some u) = .ok o1 := by
        unfold getOrderById
        have hf2 : db1.orders.find?
            (fun x => x.id == o1.id &&
              (match some u with | some v => x.userId == v | none => true)) = some o1 := by
          rw [horders, List.find?_append]
          have hpre : db.orders.find?
              (fun x => x.id == o1.id &&
                (match some u with | some v => x.userId == v | none => true)) = none := by
            rw [List.find?_eq_none]
            intro x hx
            have hlt := hids x hx
            rw [ho1id]
            simp [Nat.ne_of_lt hlt]
          rw [hpre]
          simp [ho1u]
        rw [hf2]
      constructor
      · show (match idemLookup db1 u p.idempotencyKey with
              | some existing => Except.map (fun o => (o, db1)) (getOrderById db1 existing.id (some u))
              | none => createOrderFresh db1 u p) = Except.ok (o1, db1)
        rw [hlk2]
        show Except.map (fun o => (o, db1)) (getOrderById db1 o1.id (some u)) = _
        rw [hget2]
        rfl
      · unfold ordersWithKey
        rw [horders, List.filter_append]
        have h1 : db.orders.filter
            (fun o => o.userId == u && o.idempotencyKey == some k) = [] := by
          rw [List.filter_eq_nil_iff]
          intro x hx
          have := List.find?_eq_none.mp hfnone x hx
          simpa using this
        rw [h1]
        simp [ho1u, ho1k]

theorem createOrder_idempotent_witness :
    (paramsW.idempotencyKey = some "key1" ∧ ("key1" : String) ≠ "" ∧
      createOrder dbW 1 paramsW = .ok (oW, dbWafter)) ∧
    (createOrder dbWafter 1 paramsW = .ok (oW, dbWafter) ∧
      (ordersWithKey dbWafter 1 "key1").length = 1) := by
  refine ⟨⟨rfl, by decide, createOrder_dbW_eval⟩, ?_⟩
  refine createOrder_idempotent dbW 1 paramsW "key1" oW dbWafter rfl (by decide) ?_ ?_ ?_
    createOrder_dbW_eval
  · intro x hx
    simp [dbW, emptyDB] at hx
  · simp [dbW, emptyDB]
  · intro x hx
    simp [dbW, emptyDB] at hx

end OrderSwift
